import Mathlib

/-!
Verification development for the BoTNet model-definition code
(`image_classification/BoTNet/botnet.py`) and its configuration loader
(`image_classification/BoTNet/config.py`).

Tensors are shallowly embedded as a shape vector together with a total
indexing function into ℚ (row-major semantics; entries outside the shape
are junk and every theorem quantifies only over in-range indices).
`paddle.reshape` is modelled at each call site by the structured
re-indexing that row-major reshape performs for that call's factorisation
of the dimensions, guarded by the same size checks paddle performs
(returning `none` where paddle would raise).  Floating-point arithmetic
is modelled by exact rationals; the only transcendental operations
(`softmax`'s exponential, the `dim_qk ** -0.5` scale, batch-norm's
rsqrt-based affine) enter as explicit parameters, which is faithful for
every claim below (none of them depends on those numeric values).
-/

set_option maxHeartbeats 1000000

namespace BoTNet

/-- Rank-2 tensor (used for the relative-position embedding tables). -/
structure Tensor2 where
  d0 : ℕ
  d1 : ℕ
  val : ℕ → ℕ → ℚ

/-- Rank-3 tensor. -/
structure Tensor3 where
  d0 : ℕ
  d1 : ℕ
  d2 : ℕ
  val : ℕ → ℕ → ℕ → ℚ

/-- Rank-4 tensor (feature maps and attention logits). -/
structure Tensor4 where
  d0 : ℕ
  d1 : ℕ
  d2 : ℕ
  d3 : ℕ
  val : ℕ → ℕ → ℕ → ℕ → ℚ

/-- Rank-5 tensor. -/
structure Tensor5 where
  d0 : ℕ
  d1 : ℕ
  d2 : ℕ
  d3 : ℕ
  d4 : ℕ
  val : ℕ → ℕ → ℕ → ℕ → ℕ → ℚ

/-- Rank-6 tensor. -/
structure Tensor6 where
  d0 : ℕ
  d1 : ℕ
  d2 : ℕ
  d3 : ℕ
  d4 : ℕ
  d5 : ℕ
  val : ℕ → ℕ → ℕ → ℕ → ℕ → ℕ → ℚ

/-- Model of `paddle.zeros([a, b, c])`. -/
def zeros3 (a b c : ℕ) : Tensor3 := ⟨a, b, c, fun _ _ _ => 0⟩

/-- Model of `paddle.zeros([a, b, c, d])`. -/
def zeros4 (a b c d : ℕ) : Tensor4 := ⟨a, b, c, d, fun _ _ _ _ => 0⟩

/-- Model of `paddle.concat([x, y], axis=3)`; at every call site the non-axis
dimensions of the operands coincide by construction. -/
def concat4 (x y : Tensor4) : Tensor4 :=
  ⟨x.d0, x.d1, x.d2, x.d3 + y.d3, fun b n i j =>
    if j < x.d3 then x.val b n i j else y.val b n i (j - x.d3)⟩

/-- Model of `paddle.concat([x, y], axis=2)` on rank-3 tensors. -/
def concat3 (x y : Tensor3) : Tensor3 :=
  ⟨x.d0, x.d1, x.d2 + y.d2, fun b n p =>
    if p < x.d2 then x.val b n p else y.val b n (p - x.d2)⟩

/-- Row-major re-indexing performed by `paddle.reshape(x, [a, b, c])`
when it collapses the last two axes of a rank-4 tensor. -/
def reshape43U (x : Tensor4) (a b c : ℕ) : Tensor3 :=
  ⟨a, b, c, fun i n p => x.val i n (p / x.d3) (p % x.d3)⟩

/-- Model of `paddle.reshape(x, [a, b, c])` collapsing the last two axes of a
rank-4 tensor (row-major), with paddle's total-size check. -/
def reshape43 (x : Tensor4) (a b c : ℕ) : Option Tensor3 :=
  if x.d0 = a ∧ x.d1 = b ∧ x.d2 * x.d3 = c then some (reshape43U x a b c)
  else none

/-- Row-major re-indexing performed by `paddle.reshape(x, [a, b, c, d])`
when it splits the last axis of a rank-3 tensor into two. -/
def reshape34U (x : Tensor3) (a b c d : ℕ) : Tensor4 :=
  ⟨a, b, c, d, fun i n p q => x.val i n (p * d + q)⟩

/-- Model of `paddle.reshape(x, [a, b, c, d])` splitting the last axis of a
rank-3 tensor into two (row-major), with paddle's total-size check. -/
def reshape34 (x : Tensor3) (a b c d : ℕ) : Option Tensor4 :=
  if x.d0 = a ∧ x.d1 = b ∧ x.d2 = c * d then some (reshape34U x a b c d)
  else none

/-- The slice `x[:, :, :r, c0:]` (python slicing clamps `r` to the axis
length). -/
def sliceRowsFromCol (x : Tensor4) (r c0 : ℕ) : Tensor4 :=
  ⟨x.d0, x.d1, min r x.d2, x.d3 - c0, fun b n i j => x.val b n i (c0 + j)⟩

/-- Model of `rel_to_abs` from `botnet.py`: append one zero column, flatten the
last two axes, append `L - 1` zeros, reshape to `(L + 1, 2L - 1)` rows
and slice out rows `0..L-1`, columns `L-1..`. -/
def rel_to_abs (x : Tensor4) : Option Tensor4 :=
  let B := x.d0
  let Nh := x.d1
  let L := x.d2
  let x1 := concat4 x (zeros4 B Nh L 1)
  (reshape43 x1 B Nh (L * 2 * L)).bind fun flat_x =>
    let flat_x2 := concat3 flat_x (zeros3 B Nh (L - 1))
    (reshape34 flat_x2 B Nh (L + 1) (2 * L - 1)).map fun final_x =>
      sliceRowsFromCol final_x L (L - 1)

/-- Pointwise description of `rel_to_abs`: on an input of shape
`(B, N, L, 2L - 1)` it succeeds, returns shape `(B, N, L, L)`, and entry
`(b, n, i, k)` of the output is entry `(b, n, i, (L - 1) + k - i)` of the
input. -/
theorem rel_to_abs_spec (x : Tensor4) (L : ℕ) (hL : 1 ≤ L)
    (h2 : x.d2 = L) (h3 : x.d3 = 2 * L - 1) :
    ∃ y, rel_to_abs x = some y ∧ y.d0 = x.d0 ∧ y.d1 = x.d1 ∧
      y.d2 = L ∧ y.d3 = L ∧
      ∀ b n i k, i < L → k < L →
        y.val b n i k = x.val b n i (L - 1 + k - i) := by
  have hgen : ∀ M : ℕ, 1 ≤ M → M * 2 * M + (M - 1) = (M + 1) * (2 * M - 1) := by
    intro M hM
    obtain ⟨m, rfl⟩ : ∃ m, M = m + 1 := ⟨M - 1, by omega⟩
    have h1 : 2 * (m + 1) - 1 = 2 * m + 1 := by omega
    rw [h1, Nat.add_sub_cancel]
    ring
  have hx1d3 : (concat4 x (zeros4 x.d0 x.d1 x.d2 1)).d3 = 2 * L := by
    simp only [concat4, zeros4, h3]
    omega
  have hc1 : (concat4 x (zeros4 x.d0 x.d1 x.d2 1)).d0 = x.d0 ∧
      (concat4 x (zeros4 x.d0 x.d1 x.d2 1)).d1 = x.d1 ∧
      (concat4 x (zeros4 x.d0 x.d1 x.d2 1)).d2 *
        (concat4 x (zeros4 x.d0 x.d1 x.d2 1)).d3 = x.d2 * 2 * x.d2 := by
    refine ⟨rfl, rfl, ?_⟩
    show x.d2 * (x.d3 + 1) = x.d2 * 2 * x.d2
    rw [h2, h3]
    have he : 2 * L - 1 + 1 = 2 * L := by omega
    rw [he]
    ring
  have hc2 : (concat3 (reshape43U (concat4 x (zeros4 x.d0 x.d1 x.d2 1))
        x.d0 x.d1 (x.d2 * 2 * x.d2)) (zeros3 x.d0 x.d1 (x.d2 - 1))).d0 = x.d0 ∧
      (concat3 (reshape43U (concat4 x (zeros4 x.d0 x.d1 x.d2 1))
        x.d0 x.d1 (x.d2 * 2 * x.d2)) (zeros3 x.d0 x.d1 (x.d2 - 1))).d1 = x.d1 ∧
      (concat3 (reshape43U (concat4 x (zeros4 x.d0 x.d1 x.d2 1))
        x.d0 x.d1 (x.d2 * 2 * x.d2)) (zeros3 x.d0 x.d1 (x.d2 - 1))).d2 =
        (x.d2 + 1) * (2 * x.d2 - 1) := by
    refine ⟨rfl, rfl, ?_⟩
    show x.d2 * 2 * x.d2 + (x.d2 - 1) = (x.d2 + 1) * (2 * x.d2 - 1)
    exact hgen x.d2 (h2 ▸ hL)
  refine ⟨sliceRowsFromCol (reshape34U (concat3 (reshape43U
      (concat4 x (zeros4 x.d0 x.d1 x.d2 1)) x.d0 x.d1 (x.d2 * 2 * x.d2))
      (zeros3 x.d0 x.d1 (x.d2 - 1))) x.d0 x.d1 (x.d2 + 1) (2 * x.d2 - 1))
      x.d2 (x.d2 - 1), ?_, rfl, rfl, ?_, ?_, ?_⟩
  · show rel_to_abs x = _
    simp only [rel_to_abs, reshape43, reshape34]
    rw [if_pos hc1]
    simp only [Option.some_bind]
    rw [if_pos hc2]
    simp only [Option.map_some']
  · simp only [sliceRowsFromCol, reshape34U, h2]
    omega
  · simp only [sliceRowsFromCol, reshape34U, h2]
    omega
  · intro b n i k hi hk
    show (concat3 (reshape43U (concat4 x (zeros4 x.d0 x.d1 x.d2 1))
        x.d0 x.d1 (x.d2 * 2 * x.d2)) (zeros3 x.d0 x.d1 (x.d2 - 1))).val b n
        (i * (2 * x.d2 - 1) + (x.d2 - 1 + k)) = _
    have hi' : i ≤ L - 1 + k := by omega
    have harith : i * (2 * x.d2 - 1) + (x.d2 - 1 + k) =
        2 * L * i + (L - 1 + k - i) := by
      rw [h2]
      have h2L : 1 ≤ 2 * L := by omega
      zify [hL, hi', h2L]
      ring
    rw [harith]
    have hlt : 2 * L * i + (L - 1 + k - i) <
        (reshape43U (concat4 x (zeros4 x.d0 x.d1 x.d2 1))
          x.d0 x.d1 (x.d2 * 2 * x.d2)).d2 := by
      show 2 * L * i + (L - 1 + k - i) < x.d2 * 2 * x.d2
      rw [h2]
      have hstep : 2 * L * i + (L - 1 + k - i) < 2 * L * (i + 1) := by
        rw [Nat.mul_succ]
        omega
      have hstep2 : 2 * L * (i + 1) ≤ 2 * L * L :=
        Nat.mul_le_mul_left _ (by omega)
      have heq : L * 2 * L = 2 * L * L := by ring
      rw [heq]
      omega
    simp only [concat3]
    rw [if_pos hlt]
    show (concat4 x (zeros4 x.d0 x.d1 x.d2 1)).val b n
        ((2 * L * i + (L - 1 + k - i)) /
          (concat4 x (zeros4 x.d0 x.d1 x.d2 1)).d3)
        ((2 * L * i + (L - 1 + k - i)) %
          (concat4 x (zeros4 x.d0 x.d1 x.d2 1)).d3) = _
    rw [hx1d3]
    have hdiv : (2 * L * i + (L - 1 + k - i)) / (2 * L) = i := by
      rw [Nat.mul_add_div (by omega)]
      rw [Nat.div_eq_of_lt (by omega)]
      rfl
    have hmod : (2 * L * i + (L - 1 + k - i)) % (2 * L) = L - 1 + k - i := by
      rw [Nat.mul_add_mod]
      exact Nat.mod_eq_of_lt (by omega)
    rw [hdiv, hmod]
    simp only [concat4]
    rw [if_pos]
    rw [h3]
    omega


/-- Model of `paddlenlp.ops.einsum("b n h w d, m d -> b n h w m", q, rel_k)`:
contraction of the query against the relative-embedding table, with
einsum's matching-extent check on the contracted axis. -/
def einsum_bnhwd_mdU (q : Tensor5) (rk : Tensor2) : Tensor5 :=
  ⟨q.d0, q.d1, q.d2, q.d3, rk.d0, fun b n h w m =>
    ∑ p ∈ Finset.range q.d4, q.val b n h w p * rk.val m p⟩

/-- Checked version of `einsum_bnhwd_mdU`. -/
def einsum_bnhwd_md (q : Tensor5) (rk : Tensor2) : Option Tensor5 :=
  if rk.d1 = q.d4 then some (einsum_bnhwd_mdU q rk) else none

/-- Row-major re-indexing of `paddle.reshape(x, [-1, b, c, d])` when it
collapses axes 1 and 2 of a rank-5 tensor (the `-1` resolves to axis 0,
which is untouched). -/
def reshape54U (x : Tensor5) (a b c d : ℕ) : Tensor4 :=
  ⟨a, b, c, d, fun i m y j => x.val i (m / x.d2) (m % x.d2) y j⟩

/-- Model of `paddle.reshape(x, [-1, b, c, d])` collapsing axes 1 and 2 of a
rank-5 tensor, with paddle's size checks. -/
def reshape54 (x : Tensor5) (a b c d : ℕ) : Option Tensor4 :=
  if x.d0 = a ∧ x.d1 * x.d2 = b ∧ x.d3 = c ∧ x.d4 = d then
    some (reshape54U x a b c d)
  else none

/-- Row-major re-indexing of `paddle.reshape(x, [-1, b, c, d, e])` when
it splits axis 1 of a rank-4 tensor into two axes of extents `b` and
`c`. -/
def reshape45U (x : Tensor4) (a b c d e : ℕ) : Tensor5 :=
  ⟨a, b, c, d, e, fun i n h y j => x.val i (n * c + h) y j⟩

/-- Model of `paddle.reshape(x, [-1, b, c, d, e])` splitting axis 1 of a rank-4
tensor, with paddle's size checks. -/
def reshape45 (x : Tensor4) (a b c d e : ℕ) : Option Tensor5 :=
  if x.d0 = a ∧ x.d1 = b * c ∧ x.d2 = d ∧ x.d3 = e then
    some (reshape45U x a b c d e)
  else none

/-- Model of `expand_dim(t, dim=3, k)` from `botnet.py` at its (only) rank-5 call
site: unsqueeze a new axis at position 3 and broadcast it to extent
`k`. -/
def expand_dim3 (t : Tensor5) (k : ℕ) : Tensor6 :=
  ⟨t.d0, t.d1, t.d2, k, t.d3, t.d4, fun b n x _ y j => t.val b n x y j⟩

/-- Model of `relative_logits_1d(q, rel_k)` from `botnet.py`: contract against the
table, collapse heads and height, convert relative to absolute indexing,
restore the rank-5 shape and broadcast over a new height axis. -/
def relative_logits_1d (q : Tensor5) (rel_k : Tensor2) : Option Tensor6 :=
  let Nh := q.d1
  let H := q.d2
  let W := q.d3
  (einsum_bnhwd_md q rel_k).bind fun rl =>
    (reshape54 rl rl.d0 (Nh * H) W (2 * W - 1)).bind fun rl4 =>
      (rel_to_abs rl4).bind fun ra =>
        (reshape45 ra ra.d0 Nh H W W).map fun rl5 =>
          expand_dim3 rl5 H

/-- Pointwise description of `relative_logits_1d`: for a query of shape
`(B, N, H, W, D)` and a table of shape `(2W - 1, D)` it succeeds, has
shape `(B, N, H, H, W, W)`, and entry `(b, n, x, i, y, j)` is the
contraction of query row `(b, n, x, y, ·)` with table row
`(W - 1) + j - y` (independent of `i`). -/
theorem relative_logits_1d_spec (q : Tensor5) (rk : Tensor2)
    (hH : 1 ≤ q.d2) (hW : 1 ≤ q.d3)
    (hrk0 : rk.d0 = 2 * q.d3 - 1) (hrk1 : rk.d1 = q.d4) :
    ∃ r, relative_logits_1d q rk = some r ∧ r.d0 = q.d0 ∧ r.d1 = q.d1 ∧
      r.d2 = q.d2 ∧ r.d3 = q.d2 ∧ r.d4 = q.d3 ∧ r.d5 = q.d3 ∧
      ∀ b n x i y j, x < q.d2 → y < q.d3 → j < q.d3 →
        r.val b n x i y j =
          ∑ p ∈ Finset.range q.d4,
            q.val b n x y p * rk.val (q.d3 - 1 + j - y) p := by
  have he : einsum_bnhwd_md q rk = some (einsum_bnhwd_mdU q rk) := by
    unfold einsum_bnhwd_md
    rw [if_pos hrk1]
  have hc54 : (einsum_bnhwd_mdU q rk).d0 = (einsum_bnhwd_mdU q rk).d0 ∧
      (einsum_bnhwd_mdU q rk).d1 * (einsum_bnhwd_mdU q rk).d2 = q.d1 * q.d2 ∧
      (einsum_bnhwd_mdU q rk).d3 = q.d3 ∧
      (einsum_bnhwd_mdU q rk).d4 = 2 * q.d3 - 1 := ⟨rfl, rfl, rfl, hrk0⟩
  have h54 : reshape54 (einsum_bnhwd_mdU q rk) (einsum_bnhwd_mdU q rk).d0
      (q.d1 * q.d2) q.d3 (2 * q.d3 - 1) =
      some (reshape54U (einsum_bnhwd_mdU q rk) (einsum_bnhwd_mdU q rk).d0
        (q.d1 * q.d2) q.d3 (2 * q.d3 - 1)) := by
    unfold reshape54
    rw [if_pos hc54]
  obtain ⟨ra, hra, hra0, hra1, hra2, hra3, hraval⟩ :=
    rel_to_abs_spec (reshape54U (einsum_bnhwd_mdU q rk)
      (einsum_bnhwd_mdU q rk).d0 (q.d1 * q.d2) q.d3 (2 * q.d3 - 1))
      q.d3 hW rfl rfl
  have hc45 : ra.d0 = ra.d0 ∧ ra.d1 = q.d1 * q.d2 ∧ ra.d2 = q.d3 ∧
      ra.d3 = q.d3 := ⟨rfl, hra1, hra2, hra3⟩
  have h45 : reshape45 ra ra.d0 q.d1 q.d2 q.d3 q.d3 =
      some (reshape45U ra ra.d0 q.d1 q.d2 q.d3 q.d3) := by
    unfold reshape45
    rw [if_pos hc45]
  refine ⟨expand_dim3 (reshape45U ra ra.d0 q.d1 q.d2 q.d3 q.d3) q.d2,
    ?_, ?_, rfl, rfl, rfl, rfl, rfl, ?_⟩
  · show relative_logits_1d q rk = _
    unfold relative_logits_1d
    rw [he]
    simp only [Option.some_bind]
    rw [h54]
    simp only [Option.some_bind]
    rw [hra]
    simp only [Option.some_bind]
    rw [h45]
    simp only [Option.map_some']
  · show ra.d0 = q.d0
    rw [hra0]
    rfl
  · intro b n x i y j hx hy hj
    show ra.val b (n * q.d2 + x) y j = _
    rw [hraval b (n * q.d2 + x) y j hy hj]
    show (einsum_bnhwd_mdU q rk).val b ((n * q.d2 + x) / q.d2)
      ((n * q.d2 + x) % q.d2) y (q.d3 - 1 + j - y) = _
    have hdiv : (n * q.d2 + x) / q.d2 = n := by
      rw [Nat.mul_comm n q.d2, Nat.mul_add_div (by omega),
        Nat.div_eq_of_lt hx]
      rfl
    have hmod : (n * q.d2 + x) % q.d2 = x := by
      rw [Nat.mul_comm n q.d2, Nat.mul_add_mod]
      exact Nat.mod_eq_of_lt hx
    rw [hdiv, hmod]
    rfl


/-- Model of `rearrange(q, "b h (x y) d -> b h x y d", x=h, y=w)`: unflatten the
query sequence axis into explicit spatial coordinates. -/
def rearrange_q_to5U (q : Tensor4) (h w : ℕ) : Tensor5 :=
  ⟨q.d0, q.d1, h, w, q.d3, fun b n x y d => q.val b n (x * w + y) d⟩

/-- Checked version of `rearrange_q_to5U` (einops requires the sequence
axis extent to equal `h * w`). -/
def rearrange_q_to5 (q : Tensor4) (h w : ℕ) : Option Tensor5 :=
  if q.d2 = h * w then some (rearrange_q_to5U q h w) else none

/-- Model of `rearrange(q, "b h x y d -> b h y x d")`: swap the two spatial axes
of the query. -/
def transpose23 (q : Tensor5) : Tensor5 :=
  ⟨q.d0, q.d1, q.d3, q.d2, q.d4, fun b n y x d => q.val b n x y d⟩

/-- Model of `rearrange(t, "b h x i y j -> b h (x y) (i j)")` applied to the
width-branch logits. -/
def rearrange6to4_w (t : Tensor6) : Tensor4 :=
  ⟨t.d0, t.d1, t.d2 * t.d4, t.d3 * t.d5, fun b n p k =>
    t.val b n (p / t.d4) (k / t.d5) (p % t.d4) (k % t.d5)⟩

/-- Model of `rearrange(t, "b h x i y j -> b h (y x) (j i)")` applied to the
height-branch logits. -/
def rearrange6to4_h (t : Tensor6) : Tensor4 :=
  ⟨t.d0, t.d1, t.d4 * t.d2, t.d5 * t.d3, fun b n p k =>
    t.val b n (p % t.d2) (k % t.d3) (p / t.d2) (k / t.d3)⟩

/-- Elementwise sum of two rank-4 tensors (`+` on paddle tensors), with
the equal-shape check (the call sites never broadcast). -/
def add4U (x y : Tensor4) : Tensor4 :=
  ⟨x.d0, x.d1, x.d2, x.d3, fun b n i j => x.val b n i j + y.val b n i j⟩

/-- Checked version of `add4U`. -/
def add4 (x y : Tensor4) : Option Tensor4 :=
  if x.d0 = y.d0 ∧ x.d1 = y.d1 ∧ x.d2 = y.d2 ∧ x.d3 = y.d3 then
    some (add4U x y)
  else none

/-- Model of `RelPosEmb`: the two learned relative-position tables.  `__init__`
draws the table entries from a scaled normal distribution; the entries
are abstracted into the parameters `th` and `tw`, the shapes are as in
the source. -/
structure RelPosEmb where
  height : ℕ
  width : ℕ
  rel_height : Tensor2
  rel_width : Tensor2

/-- Model of `RelPosEmb.__init__(height, width, dim_head)` with table entries
`th`, `tw`. -/
def RelPosEmb.init (height width dim_head : ℕ) (th tw : ℕ → ℕ → ℚ) :
    RelPosEmb :=
  ⟨height, width, ⟨2 * height - 1, dim_head, th⟩,
    ⟨2 * width - 1, dim_head, tw⟩⟩

/-- The width relative-logit tensor `rel_logits_w` computed in
`RelPosEmb.forward` (after its rearrange to `(B, heads, xy, ij)`). -/
def RelPosEmb.relLogitsW (pe : RelPosEmb) (q5 : Tensor5) : Option Tensor4 :=
  (relative_logits_1d q5 pe.rel_width).map rearrange6to4_w

/-- The height relative-logit tensor `rel_logits_h` computed in
`RelPosEmb.forward` (computed from the axis-swapped query, then
rearranged to `(B, heads, yx, ji)`). -/
def RelPosEmb.relLogitsH (pe : RelPosEmb) (q5 : Tensor5) : Option Tensor4 :=
  (relative_logits_1d (transpose23 q5) pe.rel_height).map rearrange6to4_h

/-- Model of `RelPosEmb.forward(q)`: unflatten the query, compute width and
height relative logits, and return their sum. -/
def RelPosEmb.forward (pe : RelPosEmb) (q : Tensor4) : Option Tensor4 :=
  (rearrange_q_to5 q pe.height pe.width).bind fun q5 =>
    (pe.relLogitsW q5).bind fun w =>
      (pe.relLogitsH q5).bind fun h =>
        add4 w h

/-- Pointwise description of the width relative-logit tensor. -/
theorem relLogitsW_spec (pe : RelPosEmb) (q5 : Tensor5)
    (hH : 1 ≤ q5.d2) (hW : 1 ≤ q5.d3)
    (hrk0 : pe.rel_width.d0 = 2 * q5.d3 - 1)
    (hrk1 : pe.rel_width.d1 = q5.d4) :
    ∃ w, pe.relLogitsW q5 = some w ∧ w.d0 = q5.d0 ∧ w.d1 = q5.d1 ∧
      w.d2 = q5.d2 * q5.d3 ∧ w.d3 = q5.d2 * q5.d3 ∧
      ∀ b n x y i j, x < q5.d2 → y < q5.d3 → j < q5.d3 →
        w.val b n (x * q5.d3 + y) (i * q5.d3 + j) =
          ∑ p ∈ Finset.range q5.d4,
            q5.val b n x y p * pe.rel_width.val (q5.d3 - 1 + j - y) p := by
  obtain ⟨r, hr, h0, h1, h2, h3, h4, h5, hval⟩ :=
    relative_logits_1d_spec q5 pe.rel_width hH hW hrk0 hrk1
  refine ⟨rearrange6to4_w r, ?_, ?_, ?_, ?_, ?_, ?_⟩
  · show pe.relLogitsW q5 = _
    unfold RelPosEmb.relLogitsW
    rw [hr]
    simp only [Option.map_some']
  · exact h0
  · exact h1
  · show r.d2 * r.d4 = q5.d2 * q5.d3
    rw [h2, h4]
  · show r.d3 * r.d5 = q5.d2 * q5.d3
    rw [h3, h5]
  · intro b n x y i j hx hy hj
    show r.val b n ((x * q5.d3 + y) / r.d4) ((i * q5.d3 + j) / r.d5)
      ((x * q5.d3 + y) % r.d4) ((i * q5.d3 + j) % r.d5) = _
    rw [h4, h5]
    have hdiv1 : (x * q5.d3 + y) / q5.d3 = x := by
      rw [Nat.mul_comm x q5.d3, Nat.mul_add_div (by omega),
        Nat.div_eq_of_lt hy]
      rfl
    have hmod1 : (x * q5.d3 + y) % q5.d3 = y := by
      rw [Nat.mul_comm x q5.d3, Nat.mul_add_mod]
      exact Nat.mod_eq_of_lt hy
    have hdiv2 : (i * q5.d3 + j) / q5.d3 = i := by
      rw [Nat.mul_comm i q5.d3, Nat.mul_add_div (by omega),
        Nat.div_eq_of_lt hj]
      rfl
    have hmod2 : (i * q5.d3 + j) % q5.d3 = j := by
      rw [Nat.mul_comm i q5.d3, Nat.mul_add_mod]
      exact Nat.mod_eq_of_lt hj
    rw [hdiv1, hmod1, hdiv2, hmod2]
    exact hval b n x i y j hx hy hj

/-- Pointwise description of the height relative-logit tensor. -/
theorem relLogitsH_spec (pe : RelPosEmb) (q5 : Tensor5)
    (hH : 1 ≤ q5.d2) (hW : 1 ≤ q5.d3)
    (hrk0 : pe.rel_height.d0 = 2 * q5.d2 - 1)
    (hrk1 : pe.rel_height.d1 = q5.d4) :
    ∃ h, pe.relLogitsH q5 = some h ∧ h.d0 = q5.d0 ∧ h.d1 = q5.d1 ∧
      h.d2 = q5.d2 * q5.d3 ∧ h.d3 = q5.d2 * q5.d3 ∧
      ∀ b n x y i j, x < q5.d2 → y < q5.d3 → i < q5.d2 → j < q5.d3 →
        h.val b n (x * q5.d3 + y) (i * q5.d3 + j) =
          ∑ p ∈ Finset.range q5.d4,
            q5.val b n x y p * pe.rel_height.val (q5.d2 - 1 + i - x) p := by
  have ht2 : (transpose23 q5).d2 = q5.d3 := rfl
  obtain ⟨r, hr, h0, h1, h2, h3, h4, h5, hval⟩ :=
    relative_logits_1d_spec (transpose23 q5) pe.rel_height hW hH hrk0 hrk1
  refine ⟨rearrange6to4_h r, ?_, ?_, ?_, ?_, ?_, ?_⟩
  · show pe.relLogitsH q5 = _
    unfold RelPosEmb.relLogitsH
    rw [hr]
    simp only [Option.map_some']
  · exact h0
  · exact h1
  · show r.d4 * r.d2 = q5.d2 * q5.d3
    rw [h4, h2]
    rfl
  · show r.d5 * r.d3 = q5.d2 * q5.d3
    rw [h5, h3]
    rfl
  · intro b n x y i j hx hy hi hj
    show r.val b n ((x * q5.d3 + y) % r.d2) ((i * q5.d3 + j) % r.d3)
      ((x * q5.d3 + y) / r.d2) ((i * q5.d3 + j) / r.d3) = _
    rw [h2, h3]
    show r.val b n ((x * q5.d3 + y) % q5.d3) ((i * q5.d3 + j) % q5.d3)
      ((x * q5.d3 + y) / q5.d3) ((i * q5.d3 + j) / q5.d3) = _
    have hdiv1 : (x * q5.d3 + y) / q5.d3 = x := by
      rw [Nat.mul_comm x q5.d3, Nat.mul_add_div (by omega),
        Nat.div_eq_of_lt hy]
      rfl
    have hmod1 : (x * q5.d3 + y) % q5.d3 = y := by
      rw [Nat.mul_comm x q5.d3, Nat.mul_add_mod]
      exact Nat.mod_eq_of_lt hy
    have hdiv2 : (i * q5.d3 + j) / q5.d3 = i := by
      rw [Nat.mul_comm i q5.d3, Nat.mul_add_div (by omega),
        Nat.div_eq_of_lt hj]
      rfl
    have hmod2 : (i * q5.d3 + j) % q5.d3 = j := by
      rw [Nat.mul_comm i q5.d3, Nat.mul_add_mod]
      exact Nat.mod_eq_of_lt hj
    rw [hdiv1, hmod1, hdiv2, hmod2]
    exact hval b n y j x i hy hx hi


/-- Model of `nn.Conv2D(inC, outC, 1, bias_attr=False)` applied to a feature map:
a 1x1 convolution is a per-pixel linear map over channels.  `w o c` is
the learned kernel entry `weight[o, c, 0, 0]`. -/
def conv1x1U (outC : ℕ) (w : ℕ → ℕ → ℚ) (x : Tensor4) : Tensor4 :=
  ⟨x.d0, outC, x.d2, x.d3, fun b o i j =>
    ∑ c ∈ Finset.range x.d1, w o c * x.val b c i j⟩

/-- Checked version of `conv1x1U` (paddle raises if the input channel
count differs from the kernel's declared input channels). -/
def conv1x1 (outC inC : ℕ) (w : ℕ → ℕ → ℚ) (x : Tensor4) : Option Tensor4 :=
  if x.d1 = inC then some (conv1x1U outC w x) else none

/-- Model of `x.chunk(2, axis=1)`: split the channel axis in two halves. -/
def chunk2 (x : Tensor4) : Tensor4 × Tensor4 :=
  (⟨x.d0, x.d1 / 2, x.d2, x.d3, fun b c i j => x.val b c i j⟩,
   ⟨x.d0, x.d1 / 2, x.d2, x.d3, fun b c i j => x.val b (c + x.d1 / 2) i j⟩)

/-- Model of `rearrange(x, "B (h d) H W -> B h (H W) d", h=heads)`. -/
def rearrange_heads_inU (x : Tensor4) (h : ℕ) : Tensor4 :=
  ⟨x.d0, h, x.d2 * x.d3, x.d1 / h, fun b hh p dd =>
    x.val b (hh * (x.d1 / h) + dd) (p / x.d3) (p % x.d3)⟩

/-- Checked version of `rearrange_heads_inU` (einops requires the channel
extent to be a positive multiple of `h`). -/
def rearrange_heads_in (x : Tensor4) (h : ℕ) : Option Tensor4 :=
  if 1 ≤ h ∧ x.d1 % h = 0 then some (rearrange_heads_inU x h) else none

/-- Model of `q *= self.scale`: multiply every entry by a scalar. -/
def scale4 (c : ℚ) (x : Tensor4) : Tensor4 :=
  ⟨x.d0, x.d1, x.d2, x.d3, fun b n i j => c * x.val b n i j⟩

/-- Model of `paddlenlp.ops.einsum("b h x d, b h y d -> b h x y", q, k)`. -/
def einsum_qkU (q k : Tensor4) : Tensor4 :=
  ⟨q.d0, q.d1, q.d2, k.d2, fun b h x y =>
    ∑ p ∈ Finset.range q.d3, q.val b h x p * k.val b h y p⟩

/-- Checked version of `einsum_qkU`. -/
def einsum_qk (q k : Tensor4) : Option Tensor4 :=
  if q.d0 = k.d0 ∧ q.d1 = k.d1 ∧ q.d3 = k.d3 then some (einsum_qkU q k)
  else none

/-- Model of `nn.Softmax(axis=-1)`: mathematical softmax along the last axis,
with the exponential supplied as the parameter `e`. -/
def softmaxLast (e : ℚ → ℚ) (x : Tensor4) : Tensor4 :=
  ⟨x.d0, x.d1, x.d2, x.d3, fun b n i j =>
    e (x.val b n i j) / ∑ p ∈ Finset.range x.d3, e (x.val b n i p)⟩

/-- Model of `paddlenlp.ops.einsum("b h x y, b h y d -> b h x d", weights, v)`. -/
def einsum_avU (w v : Tensor4) : Tensor4 :=
  ⟨w.d0, w.d1, w.d2, v.d3, fun b h x dd =>
    ∑ y ∈ Finset.range w.d3, w.val b h x y * v.val b h y dd⟩

/-- Checked version of `einsum_avU`. -/
def einsum_av (w v : Tensor4) : Option Tensor4 :=
  if w.d0 = v.d0 ∧ w.d1 = v.d1 ∧ w.d3 = v.d2 then some (einsum_avU w v)
  else none

/-- Model of `rearrange(x, "B h (H W) d -> B (h d) H W", H=H)`. -/
def rearrange_heads_outU (a : Tensor4) (H : ℕ) : Tensor4 :=
  ⟨a.d0, a.d1 * a.d3, H, a.d2 / H, fun b c i j =>
    a.val b (c / a.d3) (i * (a.d2 / H) + j) (c % a.d3)⟩

/-- Checked version of `rearrange_heads_outU` (einops requires the
sequence extent to be a positive multiple of `H`). -/
def rearrange_heads_out (a : Tensor4) (H : ℕ) : Option Tensor4 :=
  if 1 ≤ H ∧ a.d2 % H = 0 then some (rearrange_heads_outU a H) else none

/-- Model of `MHSA`: multi-head self-attention.  The convolution kernels and the
position-embedding tables are learned parameters, abstracted into
entry functions; `scale` holds `dim_qk ** -0.5` (irrational, so kept as
an opaque rational parameter — no claim depends on its value). -/
structure MHSA where
  heads : ℕ
  dim : ℕ
  dim_qk : ℕ
  dim_v : ℕ
  scale : ℚ
  to_qk : ℕ → ℕ → ℚ
  to_v : ℕ → ℕ → ℚ
  pos_emb : RelPosEmb

/-- Model of `MHSA.__init__(dim, fmap_size, heads, dim_qk, dim_v, rel_pos_emb)`:
the position embedding is built on `fmap_size` with head dimension
`dim_qk`. -/
def MHSA.init (dim : ℕ) (fmap_size : ℕ × ℕ) (heads dim_qk dim_v : ℕ)
    (scale : ℚ) (wqk wv th tw : ℕ → ℕ → ℚ) : MHSA :=
  { heads := heads, dim := dim, dim_qk := dim_qk, dim_v := dim_v,
    scale := scale, to_qk := wqk, to_v := wv,
    pos_emb := RelPosEmb.init fmap_size.1 fmap_size.2 dim_qk th tw }

/-- Model of `MHSA.forward(featuremap)` from `botnet.py`. -/
def MHSA.forward (m : MHSA) (e : ℚ → ℚ) (featuremap : Tensor4) :
    Option Tensor4 :=
  (conv1x1 (m.heads * m.dim_qk * 2) m.dim m.to_qk featuremap).bind fun qk =>
    (conv1x1 (m.heads * m.dim_v) m.dim m.to_v featuremap).bind fun v0 =>
      (rearrange_heads_in (chunk2 qk).1 m.heads).bind fun q1 =>
        (rearrange_heads_in (chunk2 qk).2 m.heads).bind fun k1 =>
          (rearrange_heads_in v0 m.heads).bind fun v =>
            let q := scale4 m.scale q1
            (einsum_qk q k1).bind fun logits =>
              (m.pos_emb.forward q).bind fun pos =>
                (add4 logits pos).bind fun logits2 =>
                  (einsum_av (softmaxLast e logits2) v).bind fun attn_out =>
                    rearrange_heads_out attn_out featuremap.d2


/-- Success and output shape of `conv1x1`. -/
theorem conv1x1_spec (outC inC : ℕ) (w : ℕ → ℕ → ℚ) (x : Tensor4)
    (h : x.d1 = inC) :
    ∃ y, conv1x1 outC inC w x = some y ∧ y.d0 = x.d0 ∧ y.d1 = outC ∧
      y.d2 = x.d2 ∧ y.d3 = x.d3 := by
  refine ⟨conv1x1U outC w x, ?_, rfl, rfl, rfl, rfl⟩
  unfold conv1x1
  rw [if_pos h]

/-- Success and output shape of `rearrange_heads_in`. -/
theorem rearrange_heads_in_spec (x : Tensor4) (h : ℕ)
    (h1 : 1 ≤ h) (h2 : x.d1 % h = 0) :
    ∃ y, rearrange_heads_in x h = some y ∧ y.d0 = x.d0 ∧ y.d1 = h ∧
      y.d2 = x.d2 * x.d3 ∧ y.d3 = x.d1 / h := by
  refine ⟨rearrange_heads_inU x h, ?_, rfl, rfl, rfl, rfl⟩
  unfold rearrange_heads_in
  rw [if_pos ⟨h1, h2⟩]

/-- Success and output shape of `einsum_qk`. -/
theorem einsum_qk_spec (q k : Tensor4)
    (h0 : q.d0 = k.d0) (h1 : q.d1 = k.d1) (h3 : q.d3 = k.d3) :
    ∃ y, einsum_qk q k = some y ∧ y.d0 = q.d0 ∧ y.d1 = q.d1 ∧
      y.d2 = q.d2 ∧ y.d3 = k.d2 := by
  refine ⟨einsum_qkU q k, ?_, rfl, rfl, rfl, rfl⟩
  unfold einsum_qk
  rw [if_pos ⟨h0, h1, h3⟩]

/-- Success and output shape of `einsum_av`. -/
theorem einsum_av_spec (w v : Tensor4)
    (h0 : w.d0 = v.d0) (h1 : w.d1 = v.d1) (h3 : w.d3 = v.d2) :
    ∃ y, einsum_av w v = some y ∧ y.d0 = w.d0 ∧ y.d1 = w.d1 ∧
      y.d2 = w.d2 ∧ y.d3 = v.d3 := by
  refine ⟨einsum_avU w v, ?_, rfl, rfl, rfl, rfl⟩
  unfold einsum_av
  rw [if_pos ⟨h0, h1, h3⟩]

/-- Success and output shape of `add4`. -/
theorem add4_spec (x y : Tensor4)
    (h0 : x.d0 = y.d0) (h1 : x.d1 = y.d1) (h2 : x.d2 = y.d2)
    (h3 : x.d3 = y.d3) :
    ∃ z, add4 x y = some z ∧ z.d0 = x.d0 ∧ z.d1 = x.d1 ∧
      z.d2 = x.d2 ∧ z.d3 = x.d3 := by
  refine ⟨add4U x y, ?_, rfl, rfl, rfl, rfl⟩
  unfold add4
  rw [if_pos ⟨h0, h1, h2, h3⟩]

/-- Success and output shape of `rearrange_heads_out`. -/
theorem rearrange_heads_out_spec (a : Tensor4) (H : ℕ)
    (h1 : 1 ≤ H) (h2 : a.d2 % H = 0) :
    ∃ y, rearrange_heads_out a H = some y ∧ y.d0 = a.d0 ∧
      y.d1 = a.d1 * a.d3 ∧ y.d2 = H ∧ y.d3 = a.d2 / H := by
  refine ⟨rearrange_heads_outU a H, ?_, rfl, rfl, rfl, rfl⟩
  unfold rearrange_heads_out
  rw [if_pos ⟨h1, h2⟩]

/-- Success and output shape of `RelPosEmb.forward`: for a query of
shape `(B, N, height * width, D)` matching the tables, the additive
position bias has shape `(B, N, height * width, height * width)`. -/
theorem RelPosEmb_forward_spec (pe : RelPosEmb) (q : Tensor4)
    (hh : 1 ≤ pe.height) (hw : 1 ≤ pe.width)
    (hq2 : q.d2 = pe.height * pe.width)
    (hw0 : pe.rel_width.d0 = 2 * pe.width - 1)
    (hw1 : pe.rel_width.d1 = q.d3)
    (hh0 : pe.rel_height.d0 = 2 * pe.height - 1)
    (hh1 : pe.rel_height.d1 = q.d3) :
    ∃ o, pe.forward q = some o ∧ o.d0 = q.d0 ∧ o.d1 = q.d1 ∧
      o.d2 = pe.height * pe.width ∧ o.d3 = pe.height * pe.width := by
  have hq5 : rearrange_q_to5 q pe.height pe.width =
      some (rearrange_q_to5U q pe.height pe.width) := by
    unfold rearrange_q_to5
    rw [if_pos hq2]
  obtain ⟨w, hwin, hw0', hw1', hw2', hw3', _⟩ :=
    relLogitsW_spec pe (rearrange_q_to5U q pe.height pe.width) hh hw hw0 hw1
  obtain ⟨h, hhin, hh0', hh1', hh2', hh3', _⟩ :=
    relLogitsH_spec pe (rearrange_q_to5U q pe.height pe.width) hh hw hh0 hh1
  obtain ⟨o, hoin, ho0, ho1, ho2, ho3⟩ := add4_spec w h
    (by rw [hw0', hh0']) (by rw [hw1', hh1']) (by rw [hw2', hh2'])
    (by rw [hw3', hh3'])
  refine ⟨o, ?_, ?_, ?_, ?_, ?_⟩
  · show pe.forward q = some o
    unfold RelPosEmb.forward
    rw [hq5]
    simp only [Option.some_bind]
    rw [hwin]
    simp only [Option.some_bind]
    rw [hhin]
    simp only [Option.some_bind]
    exact hoin
  · rw [ho0, hw0']
    rfl
  · rw [ho1, hw1']
    rfl
  · rw [ho2, hw2']
    rfl
  · rw [ho3, hw3']
    rfl

/-- Claim-C3 workhorse: `MHSA.forward`, as constructed by
`MHSA.__init__`, succeeds on any feature map whose channel count matches
`dim` and whose spatial extent matches `fmap_size`, and returns shape
`(B, heads * dim_v, H, W)`. -/
theorem MHSA_forward_spec (dim : ℕ) (fmap_size : ℕ × ℕ)
    (heads dim_qk dim_v : ℕ) (scale : ℚ) (wqk wv th tw : ℕ → ℕ → ℚ)
    (e : ℚ → ℚ) (x : Tensor4)
    (hheads : 1 ≤ heads) (hfh : 1 ≤ fmap_size.1) (hfw : 1 ≤ fmap_size.2)
    (hd1 : x.d1 = dim) (hhw : x.d2 * x.d3 = fmap_size.1 * fmap_size.2) :
    ∃ o, (MHSA.init dim fmap_size heads dim_qk dim_v scale wqk wv th
        tw).forward e x = some o ∧
      o.d0 = x.d0 ∧ o.d1 = heads * dim_v ∧ o.d2 = x.d2 ∧ o.d3 = x.d3 := by
  have hx2 : 1 ≤ x.d2 := by
    rcases Nat.eq_zero_or_pos x.d2 with h0 | h1
    · exfalso
      rw [h0] at hhw
      simp only [Nat.zero_mul] at hhw
      have : 1 ≤ fmap_size.1 * fmap_size.2 := Nat.mul_le_mul hfh hfw
      omega
    · exact h1
  obtain ⟨qk, hqk, hqk0, hqk1, hqk2, hqk3⟩ :=
    conv1x1_spec (heads * dim_qk * 2) dim wqk x hd1
  obtain ⟨v0, hv0, hv00, hv01, hv02, hv03⟩ :=
    conv1x1_spec (heads * dim_v) dim wv x hd1
  have hchunkd1 : (chunk2 qk).1.d1 = heads * dim_qk := by
    show qk.d1 / 2 = heads * dim_qk
    rw [hqk1]
    exact Nat.mul_div_cancel _ (by omega)
  have hchunkd1' : (chunk2 qk).2.d1 = heads * dim_qk := hchunkd1
  obtain ⟨q1, hq1, hq10, hq11, hq12, hq13⟩ :=
    rearrange_heads_in_spec (chunk2 qk).1 heads hheads
      (by rw [hchunkd1]; exact Nat.mul_mod_right _ _)
  obtain ⟨k1, hk1, hk10, hk11, hk12, hk13⟩ :=
    rearrange_heads_in_spec (chunk2 qk).2 heads hheads
      (by rw [hchunkd1']; exact Nat.mul_mod_right _ _)
  obtain ⟨v, hv, hv0', hv1', hv2', hv3'⟩ :=
    rearrange_heads_in_spec v0 heads hheads
      (by rw [hv01]; exact Nat.mul_mod_right _ _)
  have hq13' : q1.d3 = dim_qk := by
    rw [hq13, hchunkd1]
    exact Nat.mul_div_cancel_left _ hheads
  have hk13' : k1.d3 = dim_qk := by
    rw [hk13, hchunkd1']
    exact Nat.mul_div_cancel_left _ hheads
  have hchunk2 : (chunk2 qk).1.d2 = x.d2 := hqk2
  have hchunk3 : (chunk2 qk).1.d3 = x.d3 := hqk3
  obtain ⟨logits, hlog, hlog0, hlog1, hlog2, hlog3⟩ :=
    einsum_qk_spec (scale4 scale q1) k1
      (by show q1.d0 = k1.d0
          rw [hq10, hk10]
          exact rfl)
      (by show q1.d1 = k1.d1; rw [hq11, hk11])
      (by show q1.d3 = k1.d3; rw [hq13', hk13'])
  obtain ⟨pos, hpos, hpos0, hpos1, hpos2, hpos3⟩ :=
    RelPosEmb_forward_spec
      (RelPosEmb.init fmap_size.1 fmap_size.2 dim_qk th tw)
      (scale4 scale q1) hfh hfw
      (by show q1.d2 = fmap_size.1 * fmap_size.2
          rw [hq12]
          show (chunk2 qk).1.d2 * (chunk2 qk).1.d3 = _
          rw [hchunk2, hchunk3]
          exact hhw)
      rfl (by show dim_qk = q1.d3; rw [hq13']) rfl
      (by show dim_qk = q1.d3; rw [hq13'])
  obtain ⟨logits2, hlog2', hl20, hl21, hl22, hl23⟩ := add4_spec logits pos
    (by rw [hlog0, hpos0]) (by rw [hlog1, hpos1])
    (by rw [hlog2, hpos2]
        show q1.d2 = _
        rw [hq12]
        show (chunk2 qk).1.d2 * (chunk2 qk).1.d3 = _
        rw [hchunk2, hchunk3]
        exact hhw)
    (by rw [hlog3, hpos3, hk12]
        show (chunk2 qk).2.d2 * (chunk2 qk).2.d3 = _
        show qk.d2 * qk.d3 = _
        rw [hqk2, hqk3]
        exact hhw)
  obtain ⟨attn, hattn, hat0, hat1, hat2, hat3⟩ :=
    einsum_av_spec (softmaxLast e logits2) v
      (by show logits2.d0 = v.d0
          rw [hl20, hlog0, hv0', hv00]
          show q1.d0 = x.d0
          rw [hq10]
          exact hqk0)
      (by show logits2.d1 = v.d1
          rw [hl21, hlog1, hv1']
          exact hq11)
      (by show logits2.d3 = v.d2
          rw [hl23, hlog3, hv2', hk12, hv02, hv03]
          show (chunk2 qk).2.d2 * (chunk2 qk).2.d3 = x.d2 * x.d3
          show qk.d2 * qk.d3 = x.d2 * x.d3
          rw [hqk2, hqk3])
  obtain ⟨o, ho, ho0, ho1, ho2, ho3⟩ :=
    rearrange_heads_out_spec attn x.d2 hx2
      (by show attn.d2 % x.d2 = 0
          rw [hat2]
          show logits2.d2 % x.d2 = 0
          rw [hl22, hlog2]
          show q1.d2 % x.d2 = 0
          rw [hq12, hchunk2, hchunk3]
          exact Nat.mul_mod_right _ _)
  refine ⟨o, ?_, ?_, ?_, ?_, ?_⟩
  · show (MHSA.init dim fmap_size heads dim_qk dim_v scale wqk wv th
        tw).forward e x = some o
    unfold MHSA.forward MHSA.init
    simp only [hqk, Option.some_bind, hv0, hq1, hk1, hv, hlog, hpos,
      hlog2', hattn, ho]
  · rw [ho0, hat0]
    show logits2.d0 = x.d0
    rw [hl20, hlog0]
    show q1.d0 = x.d0
    rw [hq10]
    exact hqk0
  · rw [ho1, hat1, hat3]
    have h1 : (softmaxLast e logits2).d1 = heads := by
      show logits2.d1 = heads
      rw [hl21, hlog1]
      show q1.d1 = heads
      exact hq11
    have h2 : v.d3 = dim_v := by
      rw [hv3', hv01]
      exact Nat.mul_div_cancel_left _ hheads
    rw [h1, h2]
  · exact ho2
  · rw [ho3, hat2]
    show logits2.d2 / x.d2 = x.d3
    rw [hl22, hlog2]
    show q1.d2 / x.d2 = x.d3
    rw [hq12, hchunk2, hchunk3]
    exact Nat.mul_div_cancel_left _ hx2


/-- Model of `nn.BatchNorm2D` in its inference form: a per-channel affine map
`y = a_c * x + b_c` where `a_c = gamma_c / sqrt(var_c + eps)` and
`b_c = beta_c - a_c * mean_c` are precomputed from the learned
parameters and running statistics (the square root is irrational, so
the two per-channel coefficients are the abstracted parameters; no
claim depends on their values). -/
structure BN where
  a : ℕ → ℚ
  b : ℕ → ℚ

/-- Apply a batch-norm layer to a feature map. -/
def applyBN (p : BN) (t : Tensor4) : Tensor4 :=
  ⟨t.d0, t.d1, t.d2, t.d3, fun b c i j => p.a c * t.val b c i j + p.b c⟩

/-- An elementwise activation layer (`nn.ReLU()` by default, passed in
as a constructor argument in the source). -/
def mapVal (f : ℚ → ℚ) (t : Tensor4) : Tensor4 :=
  ⟨t.d0, t.d1, t.d2, t.d3, fun b c i j => f (t.val b c i j)⟩

/-- Model of `nn.AvgPool2D(2)`: 2x2 average pooling with stride 2. -/
def avgPool2 (t : Tensor4) : Tensor4 :=
  ⟨t.d0, t.d1, t.d2 / 2, t.d3 / 2, fun b c i j =>
    (t.val b c (2 * i) (2 * j) + t.val b c (2 * i) (2 * j + 1) +
      t.val b c (2 * i + 1) (2 * j) + t.val b c (2 * i + 1) (2 * j + 1)) / 4⟩

/-- Model of `nn.Conv2D(inC, outC, kernel_size=1, stride=s, bias_attr=False)`:
a strided 1x1 convolution samples every `s`-th pixel. -/
def conv1x1sU (outC s : ℕ) (w : ℕ → ℕ → ℚ) (x : Tensor4) : Tensor4 :=
  ⟨x.d0, outC, (x.d2 - 1) / s + 1, (x.d3 - 1) / s + 1, fun b o i j =>
    ∑ c ∈ Finset.range x.d1, w o c * x.val b c (s * i) (s * j)⟩

/-- Checked version of `conv1x1sU`. -/
def conv1x1s (outC inC s : ℕ) (w : ℕ → ℕ → ℚ) (x : Tensor4) :
    Option Tensor4 :=
  if x.d1 = inC then some (conv1x1sU outC s w x) else none

/-- The shortcut branch of `BoTBlock.__init__`: either `nn.Identity()`
or the projection `nn.Sequential(Conv2D 1x1 stride, BatchNorm2D,
activation)`. -/
inductive Shortcut where
  | identity : Shortcut
  | projection : (ℕ → ℕ → ℚ) → BN → Shortcut

/-- The learned parameters of one `BoTBlock` (convolution kernels,
batch-norm coefficients, attention parameters). -/
structure BlockParams where
  short_conv : ℕ → ℕ → ℚ
  short_bn : BN
  conv1 : ℕ → ℕ → ℚ
  bn1 : BN
  wqk : ℕ → ℕ → ℚ
  wv : ℕ → ℕ → ℚ
  th : ℕ → ℕ → ℚ
  tw : ℕ → ℕ → ℚ
  scale : ℚ
  bn2 : BN
  conv2 : ℕ → ℕ → ℚ
  bn3 : BN

/-- Model of `BoTBlock`: bottleneck transformer block. -/
structure BoTBlock where
  dim : ℕ
  dim_out : ℕ
  stride : ℕ
  heads : ℕ
  proj_factor : ℕ
  dim_qk : ℕ
  dim_v : ℕ
  fmap_size : ℕ × ℕ
  act : ℚ → ℚ
  shortcut : Shortcut
  mhsa : MHSA
  params : BlockParams

/-- Model of `BoTBlock.__init__`: the shortcut is the projection exactly when
`dim != dim_out or stride != 1`, otherwise `nn.Identity()`; the MHSA
operates at the bottleneck width `dim_out // proj_factor`. -/
def BoTBlock.init (dim : ℕ) (fmap_size : ℕ × ℕ)
    (dim_out stride heads proj_factor dim_qk dim_v : ℕ)
    (act : ℚ → ℚ) (p : BlockParams) : BoTBlock :=
  { dim := dim, dim_out := dim_out, stride := stride, heads := heads,
    proj_factor := proj_factor, dim_qk := dim_qk, dim_v := dim_v,
    fmap_size := fmap_size, act := act,
    shortcut :=
      if dim ≠ dim_out ∨ stride ≠ 1 then
        Shortcut.projection p.short_conv p.short_bn
      else Shortcut.identity,
    mhsa := MHSA.init (dim_out / proj_factor) fmap_size heads dim_qk
      dim_v p.scale p.wqk p.wv p.th p.tw,
    params := p }

/-- Run the shortcut branch on a feature map. -/
def Shortcut.apply (sc : Shortcut) (dim_out inC stride : ℕ)
    (act : ℚ → ℚ) (x : Tensor4) : Option Tensor4 :=
  match sc with
  | .identity => some x
  | .projection w bn =>
    (conv1x1s dim_out inC stride w x).map fun y => mapVal act (applyBN bn y)

/-- The main branch `self.net` of `BoTBlock`: conv+norm+activation down
to the bottleneck width, MHSA, optional 2x2 average pooling when
`stride == 2`, norm+activation, conv+norm up to `dim_out`. -/
def BoTBlock.netForward (blk : BoTBlock) (e : ℚ → ℚ) (x : Tensor4) :
    Option Tensor4 :=
  (conv1x1 (blk.dim_out / blk.proj_factor) blk.dim blk.params.conv1
      x).bind fun y1 =>
    (blk.mhsa.forward e (mapVal blk.act (applyBN blk.params.bn1
        y1))).bind fun y3 =>
      let y4 := if blk.stride = 2 then avgPool2 y3 else y3
      (conv1x1 blk.dim_out (blk.heads * blk.dim_v) blk.params.conv2
          (mapVal blk.act (applyBN blk.params.bn2 y4))).map fun y6 =>
        applyBN blk.params.bn3 y6

/-- Model of `BoTBlock.forward`: compute the shortcut, compute the main branch,
add them, and apply the activation. -/
def BoTBlock.forward (blk : BoTBlock) (e : ℚ → ℚ) (x : Tensor4) :
    Option Tensor4 :=
  (blk.shortcut.apply blk.dim_out blk.dim blk.stride blk.act x).bind
    fun sc =>
      (blk.netForward e x).bind fun fm =>
        (add4 fm sc).map fun s => mapVal blk.act s

/-- Model of `BoTStack`: the final stage, a sequence of `BoTBlock`s. -/
structure BoTStack where
  dim : ℕ
  fmap_size : ℕ × ℕ
  blocks : List BoTBlock

/-- Model of `BoTStack.__init__`: only the first block may change stride and
channel count; later blocks run at the downsampled feature-map size
when `stride == 2`. -/
def BoTStack.init (dim : ℕ) (fmap_size : ℕ × ℕ)
    (dim_out heads proj_factor num_layers stride dim_qk dim_v : ℕ)
    (act : ℚ → ℚ) (ps : ℕ → BlockParams) : BoTStack :=
  { dim := dim, fmap_size := fmap_size,
    blocks := (List.range num_layers).map fun i =>
      let fmap_divisor := if stride = 2 ∧ ¬i = 0 then 2 else 1
      BoTBlock.init (if i = 0 then dim else dim_out)
        (fmap_size.1 / fmap_divisor, fmap_size.2 / fmap_divisor)
        dim_out (if i = 0 then stride else 1) heads proj_factor
        dim_qk dim_v act (ps i) }

/-- Model of `BoTStack.forward`: assert the input channel count equals `self.dim`
and the spatial size equals `self.fmap_size`, then run the blocks.  A
failing `assert` is modelled as `Except.error ()`; `Except.ok` carries
the block pipeline's own result. -/
def BoTStack.forward (s : BoTStack) (e : ℚ → ℚ) (x : Tensor4) :
    Except Unit (Option Tensor4) :=
  if x.d1 = s.dim then
    if x.d2 = s.fmap_size.1 ∧ x.d3 = s.fmap_size.2 then
      Except.ok (s.blocks.foldlM (fun t blk => blk.forward e t) x)
    else Except.error ()
  else Except.error ()


/-- A yacs config value.  Python ints, floats, strings, bools, `None`
and the (homogeneous) tuples/lists appearing in `config.py` are
modelled; yacs treats each python type as a distinct kind for its
merge-time type check. -/
inductive Val where
  | vint : ℤ → Val
  | vrat : ℚ → Val
  | vstr : String → Val
  | vbool : Bool → Val
  | vnone : Val
  | vints : List ℤ → Val
  | vrats : List ℚ → Val
  | vstrs : List String → Val
deriving DecidableEq

/-- yacs `_check_and_coerce_cfg_value_type`: a replacement value must
have the same python type as the value it replaces. -/
def Val.sameKind : Val → Val → Bool
  | .vint _, .vint _ => true
  | .vrat _, .vrat _ => true
  | .vstr _, .vstr _ => true
  | .vbool _, .vbool _ => true
  | .vnone, .vnone => true
  | .vints _, .vints _ => true
  | .vrats _, .vrats _ => true
  | .vstrs _, .vstrs _ => true
  | _, _ => false

/-- A config tree, flattened to an association list from dotted key
paths (e.g. `["DATA", "BATCH_SIZE"]`) to leaf values. -/
def findVal : List (List String × Val) → List String → Option Val
  | [], _ => none
  | (p, v) :: rest, q => if p = q then some v else findVal rest q

/-- Set (replace-or-append) a path in a flattened config tree. -/
def setVal (es : List (List String × Val)) (q : List String) (v : Val) :
    List (List String × Val) :=
  match es with
  | [] => [(q, v)]
  | (p, w) :: rest =>
    if p = q then (p, v) :: rest else (p, w) :: setVal rest q v

/-- yacs `_merge_a_into_b` (flattened): every key of `a` must already
exist in `b` with a value of the same kind (else yacs raises, modelled
as `none`); matching keys are overwritten with `a`'s value. -/
def mergeEntries (a b : List (List String × Val)) :
    Option (List (List String × Val)) :=
  a.foldlM
    (fun acc pv =>
      match findVal acc pv.1 with
      | some w => if Val.sameKind pv.2 w then some (setVal acc pv.1 pv.2)
                  else none
      | none => none)
    b

/-- A yacs `CfgNode`: the (flattened) tree plus its `_immutable`
("frozen") flag. -/
structure Config where
  frozen : Bool
  entries : List (List String × Val)
deriving DecidableEq

/-- A YAML config file, already parsed into the flattened tree form
(its optional `BASE` entry stays in the tree, as in the source, where
`merge_from_file` re-reads the whole document). -/
structure YFile where
  entries : List (List String × Val)
deriving DecidableEq

/-- Model of `yaml_cfg.setdefault('BASE', [''])`: the list of parent config
files named by the document, defaulting to `['']`. -/
def getBASE (f : YFile) : List String :=
  match findVal f.entries ["BASE"] with
  | some (Val.vstrs l) => l
  | _ => [""]

/-- yacs `__setattr__`: refuses when the node is frozen, otherwise sets
(creating the key if absent, without any type check). -/
def setA (c : Config) (p : List String) (v : Val) : Option Config :=
  if c.frozen then none
  else some { c with entries := setVal c.entries p v }

/-- Model of `_update_config_from_file(config, cfg_file)` from `config.py`:
defrost, load the YAML document, recursively merge each parent file
named in its `BASE` list (depth-first, parent-first), then merge the
file itself (`merge_from_file` writes through yacs item assignment, so
the freeze performed by a recursive call does not stop it), and freeze.
`fs` models the file system, `resolve` models
`os.path.join(os.path.dirname(cfg_file), cfg)`, and `fuel` bounds the
recursion depth (python would exhaust the stack on cyclic BASE lists). -/
def update_config_from_file :
    ℕ → (String → Option YFile) → (String → String → String) →
    Config → String → Option Config
  | 0, _, _, _, _ => none
  | fuel + 1, fs, resolve, config, cfg_file =>
    match fs cfg_file with
    | none => none
    | some f =>
      let config1 : Config := { config with frozen := false }
      ((getBASE f).foldlM
        (fun c b =>
          if b = "" then some c
          else update_config_from_file fuel fs resolve c
            (resolve cfg_file b))
        config1).bind fun c2 =>
        (mergeEntries f.entries c2.entries).map fun es =>
          { frozen := true, entries := es }

/-- The command-line arguments consumed by `update_config`.  Flags
parsed with `store_true` are `Bool`; valued options are `Option`s
(python `None` when absent). -/
structure Args where
  cfg : Option String
  dataset : Option String
  batch_size : Option ℤ
  image_size : Option ℤ
  data_path : Option String
  ngpus : Option ℤ
  eval : Bool
  pretrained : Option String
  resume : Option String
  last_epoch : Option ℤ
  amp : Bool
deriving DecidableEq

/-- Model of `if args.<field>:` for a string-valued option (python truthiness:
`None` and the empty string are falsy). -/
def setIfStr (o : Option String) (p : List String) (c : Config) :
    Option Config :=
  match o with
  | some s => if s = "" then some c else setA c p (Val.vstr s)
  | none => some c

/-- Model of `if args.<field>:` for an int-valued option (python truthiness:
`None` and `0` are falsy). -/
def setIfInt (o : Option ℤ) (p : List String) (c : Config) :
    Option Config :=
  match o with
  | some n => if n = 0 then some c else setA c p (Val.vint n)
  | none => some c

/-- The raw python value of an optional int argument (`None` when
absent). -/
def optIntVal : Option ℤ → Val
  | some n => Val.vint n
  | none => Val.vnone

/-- The `if args.eval:` statement of `update_config`: set `EVAL` to
`True` and assign `args.batch_size` (whatever it is, `None` included)
to `DATA.BATCH_SIZE_EVAL`. -/
def evalStep (args : Args) (c : Config) : Option Config :=
  if args.eval then
    (setA c ["EVAL"] (Val.vbool true)).bind fun c1 =>
      setA c1 ["DATA", "BATCH_SIZE_EVAL"] (optIntVal args.batch_size)
  else some c

/-- The `if args.amp:` statement of `update_config`: only when the amp
flag is truthy, force `AMP = False` if `config.EVAL is True`, else set
`AMP = True` (reading a missing `EVAL` would be an `AttributeError`,
modelled as `none`). -/
def ampStep (args : Args) (c : Config) : Option Config :=
  if args.amp then
    (findVal c.entries ["EVAL"]).bind fun v =>
      if v = Val.vbool true then setA c ["AMP"] (Val.vbool false)
      else setA c ["AMP"] (Val.vbool true)
  else some c

/-- Model of `update_config(config, args)` from `config.py` (the source's
`config.freeze()` at the end is commented out, so the result is
returned unfrozen). -/
def update_config (fuel : ℕ) (fs : String → Option YFile)
    (resolve : String → String → String) (config : Config)
    (args : Args) : Option Config :=
  (match args.cfg with
   | some s =>
     if s = "" then some config
     else update_config_from_file fuel fs resolve config s
   | none => some config).bind fun c0 =>
    let c1 : Config := { c0 with frozen := false }
    (setIfStr args.dataset ["DATA", "DATASET"] c1).bind fun c2 =>
      (setIfInt args.batch_size ["DATA", "BATCH_SIZE"] c2).bind fun c3 =>
        (setIfInt args.image_size ["DATA", "IMAGE_SIZE"] c3).bind fun c4 =>
          (setIfStr args.data_path ["DATA", "DATA_PATH"] c4).bind fun c5 =>
            (setIfInt args.ngpus ["NGPUS"] c5).bind fun c6 =>
              (evalStep args c6).bind fun c7 =>
                (setIfStr args.pretrained ["MODEL", "PRETRAINED"]
                    c7).bind fun c8 =>
                  (setIfStr args.resume ["MODEL", "RESUME"] c8).bind
                    fun c9 =>
                      (setIfInt args.last_epoch ["TRAIN", "LAST_EPOCH"]
                          c9).bind fun c10 =>
                        ampStep args c10

/-- The default config tree `_C` built at the top of `config.py`. -/
def defaultConfig : Config :=
  { frozen := false,
    entries := [
      (["BASE"], Val.vstrs [""]),
      (["DATA", "BATCH_SIZE"], Val.vint 8),
      (["DATA", "BATCH_SIZE_EVAL"], Val.vint 8),
      (["DATA", "DATA_PATH"], Val.vstr "/dataset/imagenet/"),
      (["DATA", "DATASET"], Val.vstr "imagenet2012"),
      (["DATA", "IMAGE_SIZE"], Val.vint 224),
      (["DATA", "FMAP_SIZE"], Val.vints [14, 14]),
      (["DATA", "CROP_PCT"], Val.vrat 0.9),
      (["DATA", "NUM_WORKERS"], Val.vint 4),
      (["MODEL", "TYPE"], Val.vstr "BoTNet"),
      (["MODEL", "NAME"], Val.vstr "BoTNet"),
      (["MODEL", "RESUME"], Val.vnone),
      (["MODEL", "PRETRAINED"], Val.vnone),
      (["MODEL", "NUM_CLASSES"], Val.vint 10),
      (["MODEL", "TRANS", "EMBED_DIM"], Val.vint 2048),
      (["MODEL", "TRANS", "NUM_HEADS"], Val.vint 4),
      (["MODEL", "TRANS", "USE_ABS_POS_EMB"], Val.vbool false),
      (["MODEL", "TRANS", "USE_REL_POS_BIAS"], Val.vbool true),
      (["TRAIN", "LAST_EPOCH"], Val.vint 0),
      (["TRAIN", "NUM_EPOCHS"], Val.vint 300),
      (["TRAIN", "WARMUP_EPOCHS"], Val.vint 20),
      (["TRAIN", "WEIGHT_DECAY"], Val.vrat 0.05),
      (["TRAIN", "BASE_LR"], Val.vrat 0.0005),
      (["TRAIN", "WARMUP_START_LR"], Val.vrat 0.0000005),
      (["TRAIN", "END_LR"], Val.vrat 0.000005),
      (["TRAIN", "GRAD_CLIP"], Val.vrat 5.0),
      (["TRAIN", "ACCUM_ITER"], Val.vint 1),
      (["TRAIN", "LR_SCHEDULER", "NAME"], Val.vstr "warmupcosine"),
      (["TRAIN", "LR_SCHEDULER", "MILESTONES"], Val.vstr "30, 60, 90"),
      (["TRAIN", "LR_SCHEDULER", "DECAY_EPOCHS"], Val.vint 30),
      (["TRAIN", "LR_SCHEDULER", "DECAY_RATE"], Val.vrat 0.1),
      (["TRAIN", "OPTIMIZER", "NAME"], Val.vstr "AdamW"),
      (["TRAIN", "OPTIMIZER", "EPS"], Val.vrat 0.00000001),
      (["TRAIN", "OPTIMIZER", "BETAS"], Val.vrats [0.9, 0.999]),
      (["TRAIN", "OPTIMIZER", "MOMENTUM"], Val.vrat 0.9),
      (["TRAIN", "MIXUP_ALPHA"], Val.vrat 0.8),
      (["TRAIN", "CUTMIX_ALPHA"], Val.vrat 1.0),
      (["TRAIN", "CUTMIX_MINMAX"], Val.vnone),
      (["TRAIN", "MIXUP_PROB"], Val.vrat 1.0),
      (["TRAIN", "MIXUP_SWITCH_PROB"], Val.vrat 0.5),
      (["TRAIN", "MIXUP_MODE"], Val.vstr "batch"),
      (["TRAIN", "SMOOTHING"], Val.vrat 0.1),
      (["TRAIN", "COLOR_JITTER"], Val.vrat 0.4),
      (["TRAIN", "AUTO_AUGMENT"], Val.vbool true),
      (["TRAIN", "RANDOM_ERASE_PROB"], Val.vrat 0.25),
      (["TRAIN", "RANDOM_ERASE_MODE"], Val.vstr "pixel"),
      (["TRAIN", "RANDOM_ERASE_COUNT"], Val.vint 1),
      (["TRAIN", "RANDOM_ERASE_SPLIT"], Val.vbool false),
      (["AUG", "COLOR_JITTER"], Val.vrat 0.4),
      (["AUG", "AUTO_AUGMENT"], Val.vstr "rand-m9-mstd0.5-inc1"),
      (["AUG", "RE_PROB"], Val.vrat 0.25),
      (["AUG", "RE_MODE"], Val.vstr "pixel"),
      (["AUG", "RE_COUNT"], Val.vint 1),
      (["AUG", "MIXUP"], Val.vrat 0.8),
      (["AUG", "CUTMIX"], Val.vrat 1.0),
      (["AUG", "CUTMIX_MINMAX"], Val.vnone),
      (["AUG", "MIXUP_PROB"], Val.vrat 1.0),
      (["AUG", "MIXUP_SWITCH_PROB"], Val.vrat 0.5),
      (["AUG", "MIXUP_MODE"], Val.vstr "batch"),
      (["SAVE"], Val.vstr "./output"),
      (["TAG"], Val.vstr "default"),
      (["SAVE_FREQ"], Val.vint 1),
      (["REPORT_FREQ"], Val.vint 50),
      (["VALIDATE_FREQ"], Val.vint 10),
      (["SEED"], Val.vint 0),
      (["EVAL"], Val.vbool false),
      (["AMP"], Val.vbool false),
      (["LOCAL_RANK"], Val.vint 0),
      (["NGPUS"], Val.vint (-1))] }

/-- Model of `get_config(cfg_file=None)` from `config.py`: clone the defaults
and optionally merge a file. -/
def get_config (fuel : ℕ) (fs : String → Option YFile)
    (resolve : String → String → String) (cfg_file : Option String) :
    Option Config :=
  match cfg_file with
  | none => some defaultConfig
  | some f => update_config_from_file fuel fs resolve defaultConfig f


/-- Looking up the path just written returns the written value. -/
theorem findVal_setVal_self (es : List (List String × Val))
    (q : List String) (v : Val) : findVal (setVal es q v) q = some v := by
  induction es with
  | nil => simp [setVal, findVal]
  | cons hd tl ih =>
    obtain ⟨p, w⟩ := hd
    by_cases h : p = q
    · simp [setVal, h, findVal]
    · simp [setVal, h, findVal, ih]

/-- Writing one path leaves every other path unchanged. -/
theorem findVal_setVal_ne (es : List (List String × Val))
    (q p' : List String) (v : Val) (h : p' ≠ q) :
    findVal (setVal es q v) p' = findVal es p' := by
  induction es with
  | nil =>
    simp only [setVal, findVal]
    rw [if_neg (fun hq => h hq.symm)]
  | cons hd tl ih =>
    obtain ⟨p, w⟩ := hd
    by_cases hpq : p = q
    · subst hpq
      simp only [setVal, if_pos rfl, findVal]
      rw [if_neg (fun hq => h hq.symm), if_neg (fun hq => h hq.symm)]
    · simp only [setVal, if_neg hpq, findVal]
      by_cases hp' : p = p'
      · rw [if_pos hp', if_pos hp']
      · rw [if_neg hp', if_neg hp']
        exact ih

/-- Model of `setA` never changes the frozen flag. -/
theorem setA_frozen (c c' : Config) (p : List String) (v : Val)
    (h : setA c p v = some c') : c'.frozen = c.frozen := by
  unfold setA at h
  by_cases hf : c.frozen
  · rw [if_pos hf] at h
    exact absurd h (by simp)
  · rw [if_neg hf] at h
    obtain rfl := Option.some.inj h
    rfl

/-- Model of `setA` on an unfrozen node succeeds and writes the path. -/
theorem setA_of_not_frozen (c : Config) (p : List String) (v : Val)
    (h : c.frozen = false) :
    setA c p v = some ⟨c.frozen, setVal c.entries p v⟩ := by
  unfold setA
  rw [if_neg (by rw [h]; exact Bool.false_ne_true)]

/-- Model of `setA` writes the requested path and nothing else. -/
theorem setA_entries (c c' : Config) (p : List String) (v : Val)
    (h : setA c p v = some c') :
    findVal c'.entries p = some v ∧
      ∀ p', p' ≠ p → findVal c'.entries p' = findVal c.entries p' := by
  unfold setA at h
  by_cases hf : c.frozen
  · rw [if_pos hf] at h
    exact absurd h (by simp)
  · rw [if_neg hf] at h
    obtain rfl := Option.some.inj h
    exact ⟨findVal_setVal_self _ _ _,
      fun p' hp' => findVal_setVal_ne _ _ _ _ hp'⟩

/-- Effect summary of `setIfStr`. -/
theorem setIfStr_spec (o : Option String) (p : List String)
    (c c' : Config) (h : setIfStr o p c = some c') :
    c'.frozen = c.frozen ∧
      ∀ p', p' ≠ p → findVal c'.entries p' = findVal c.entries p' := by
  cases o with
  | none =>
    simp only [setIfStr] at h
    obtain rfl := Option.some.inj h
    exact ⟨rfl, fun _ _ => rfl⟩
  | some s =>
    simp only [setIfStr] at h
    by_cases hs : s = ""
    · rw [if_pos hs] at h
      obtain rfl := Option.some.inj h
      exact ⟨rfl, fun _ _ => rfl⟩
    · rw [if_neg hs] at h
      exact ⟨setA_frozen _ _ _ _ h, (setA_entries _ _ _ _ h).2⟩

/-- Effect summary of `setIfInt`. -/
theorem setIfInt_spec (o : Option ℤ) (p : List String)
    (c c' : Config) (h : setIfInt o p c = some c') :
    c'.frozen = c.frozen ∧
      ∀ p', p' ≠ p → findVal c'.entries p' = findVal c.entries p' := by
  cases o with
  | none =>
    simp only [setIfInt] at h
    obtain rfl := Option.some.inj h
    exact ⟨rfl, fun _ _ => rfl⟩
  | some n =>
    simp only [setIfInt] at h
    by_cases hn : n = 0
    · rw [if_pos hn] at h
      obtain rfl := Option.some.inj h
      exact ⟨rfl, fun _ _ => rfl⟩
    · rw [if_neg hn] at h
      exact ⟨setA_frozen _ _ _ _ h, (setA_entries _ _ _ _ h).2⟩

/-- Effect summary of `evalStep`. -/
theorem evalStep_spec (args : Args) (c c' : Config)
    (h : evalStep args c = some c') :
    c'.frozen = c.frozen ∧
      (args.eval = true →
        findVal c'.entries ["EVAL"] = some (Val.vbool true) ∧
        findVal c'.entries ["DATA", "BATCH_SIZE_EVAL"] =
          some (optIntVal args.batch_size)) ∧
      (∀ p', p' ≠ ["EVAL"] → p' ≠ ["DATA", "BATCH_SIZE_EVAL"] →
        findVal c'.entries p' = findVal c.entries p') := by
  unfold evalStep at h
  by_cases he : args.eval
  · rw [if_pos he] at h
    obtain ⟨c1, h1, h2⟩ := Option.bind_eq_some.mp h
    obtain ⟨hA1, hA2⟩ := setA_entries _ _ _ _ h1
    obtain ⟨hB1, hB2⟩ := setA_entries _ _ _ _ h2
    refine ⟨?_, ?_, ?_⟩
    · rw [setA_frozen _ _ _ _ h2, setA_frozen _ _ _ _ h1]
    · intro _
      refine ⟨?_, hB1⟩
      rw [hB2 _ (by simp), hA1]
    · intro p' hp1 hp2
      rw [hB2 _ hp2, hA2 _ hp1]
  · rw [if_neg he] at h
    obtain rfl := Option.some.inj h
    exact ⟨rfl, fun hc => absurd hc (by simpa using he), fun _ _ _ => rfl⟩

/-- Effect summary of `ampStep`. -/
theorem ampStep_spec (args : Args) (c c' : Config)
    (h : ampStep args c = some c') :
    c'.frozen = c.frozen ∧
      (args.amp = true →
        findVal c.entries ["EVAL"] = some (Val.vbool true) →
        findVal c'.entries ["AMP"] = some (Val.vbool false)) ∧
      (args.amp = false → c' = c) ∧
      (∀ p', p' ≠ ["AMP"] →
        findVal c'.entries p' = findVal c.entries p') := by
  unfold ampStep at h
  by_cases ha : args.amp
  · rw [if_pos ha] at h
    rcases hev : findVal c.entries ["EVAL"] with _ | v
    · rw [hev] at h
      exact absurd h (by simp)
    · rw [hev] at h
      simp only [Option.some_bind] at h
      by_cases hv : v = Val.vbool true
      · rw [if_pos hv] at h
        exact ⟨setA_frozen _ _ _ _ h,
          fun _ _ => (setA_entries _ _ _ _ h).1,
          fun hc => absurd (hc ▸ ha) Bool.false_ne_true,
          (setA_entries _ _ _ _ h).2⟩
      · rw [if_neg hv] at h
        exact ⟨setA_frozen _ _ _ _ h,
          fun _ hev' => absurd (Option.some.inj hev') hv,
          fun hc => absurd (hc ▸ ha) Bool.false_ne_true,
          (setA_entries _ _ _ _ h).2⟩
  · rw [if_neg ha] at h
    obtain rfl := Option.some.inj h
    exact ⟨rfl, fun hc _ => absurd hc (by simpa using ha),
      fun _ => rfl, fun _ _ => rfl⟩

/-- Destructuring of a successful `update_config` run into its eleven
sequential statements. -/
theorem update_config_eq_some (fuel : ℕ) (fs : String → Option YFile)
    (resolve : String → String → String) (config : Config) (args : Args)
    (c' : Config) (h : update_config fuel fs resolve config args = some c') :
    ∃ c0 c2 c3 c4 c5 c6 c7 c8 c9 c10,
      (match args.cfg with
       | some s =>
         if s = "" then some config
         else update_config_from_file fuel fs resolve config s
       | none => some config) = some c0 ∧
      setIfStr args.dataset ["DATA", "DATASET"]
        { c0 with frozen := false } = some c2 ∧
      setIfInt args.batch_size ["DATA", "BATCH_SIZE"] c2 = some c3 ∧
      setIfInt args.image_size ["DATA", "IMAGE_SIZE"] c3 = some c4 ∧
      setIfStr args.data_path ["DATA", "DATA_PATH"] c4 = some c5 ∧
      setIfInt args.ngpus ["NGPUS"] c5 = some c6 ∧
      evalStep args c6 = some c7 ∧
      setIfStr args.pretrained ["MODEL", "PRETRAINED"] c7 = some c8 ∧
      setIfStr args.resume ["MODEL", "RESUME"] c8 = some c9 ∧
      setIfInt args.last_epoch ["TRAIN", "LAST_EPOCH"] c9 = some c10 ∧
      ampStep args c10 = some c' := by
  unfold update_config at h
  obtain ⟨c0, h0, h⟩ := Option.bind_eq_some.mp h
  obtain ⟨c2, h2, h⟩ := Option.bind_eq_some.mp h
  obtain ⟨c3, h3, h⟩ := Option.bind_eq_some.mp h
  obtain ⟨c4, h4, h⟩ := Option.bind_eq_some.mp h
  obtain ⟨c5, h5, h⟩ := Option.bind_eq_some.mp h
  obtain ⟨c6, h6, h⟩ := Option.bind_eq_some.mp h
  obtain ⟨c7, h7, h⟩ := Option.bind_eq_some.mp h
  obtain ⟨c8, h8, h⟩ := Option.bind_eq_some.mp h
  obtain ⟨c9, h9, h⟩ := Option.bind_eq_some.mp h
  obtain ⟨c10, h10, h⟩ := Option.bind_eq_some.mp h
  exact ⟨c0, c2, c3, c4, c5, c6, c7, c8, c9, c10,
    h0, h2, h3, h4, h5, h6, h7, h8, h9, h10, h⟩


/-- Claim C1: for every input of shape `(B, N, L, 2L - 1)` the function
`rel_to_abs` (whose definition above performs exactly the claimed
steps: append one zero column, flatten the last two axes to length
`L * 2L`, append `L - 1` zeros, reshape to `(L + 1, 2L - 1)` and slice
rows `0..L-1`, columns `L-1..2L-2`) succeeds and returns a tensor of
shape `(B, N, L, L)`. -/
theorem C1_rel_to_abs_shape (x : Tensor4) (B N L : ℕ) (hL : 1 ≤ L)
    (h0 : x.d0 = B) (h1 : x.d1 = N) (h2 : x.d2 = L)
    (h3 : x.d3 = 2 * L - 1) :
    ∃ y, rel_to_abs x = some y ∧ y.d0 = B ∧ y.d1 = N ∧ y.d2 = L ∧
      y.d3 = L := by
  obtain ⟨y, hy, e0, e1, e2, e3, _⟩ := rel_to_abs_spec x L hL h2 h3
  exact ⟨y, hy, e0.trans h0, e1.trans h1, e2, e3⟩

/-- Witness for C1 at `B = N = 1`, `L = 2`. -/
theorem C1_rel_to_abs_shape_witness :
    ∃ y, rel_to_abs (⟨1, 1, 2, 3, fun _ _ i j =>
        ((10 * i + j : ℕ) : ℚ)⟩ : Tensor4) = some y ∧
      y.d0 = 1 ∧ y.d1 = 1 ∧ y.d2 = 2 ∧ y.d3 = 2 :=
  C1_rel_to_abs_shape _ 1 1 2 (by decide) rfl rfl rfl rfl

/-- One-hot input used to refute claim C2 as stated: `L = 2`, the
single 1 sits at `(b, n, i, j) = (0, 0, 0, 0)`. -/
def xC2 : Tensor4 :=
  ⟨1, 1, 2, 3, fun b n i j =>
    if b = 0 ∧ n = 0 ∧ i = 0 ∧ j = 0 then 1 else 0⟩

/-- Counterexample to claim C2 as stated.  For `L = 2` and the one-hot
at `(0, 0, 0, 0)`, the claimed formula `expected = i + L - 1 - j` gives
`expected = 1`, so the claim predicts output entry `(0, 0, 0, 1) = 1`;
the code produces 0 there (the code's actual target column is
`i + j - (L - 1)`, which is out of range here, so the 1 is dropped
entirely). -/
theorem C2_counterexample :
    ((rel_to_abs xC2).map fun y => y.val 0 0 0 1) = some 0 ∧
      ((rel_to_abs xC2).map fun y => y.val 0 0 0 1) ≠ some 1 := by
  constructor
  · decide
  · decide

/-- Claim C2 (amended): the relative offset `j` of a one-hot at
`(b0, n0, i0, j0)` corresponds to the absolute target column `expected`
satisfying `i0 + j0 = (L - 1) + expected` (that is,
`expected = i0 + j0 - (L - 1)`, not `i0 + (L - 1) - j0`); when that
target is in range `0..L-1`, `rel_to_abs` places the 1 at
`(b0, n0, i0, expected)` and is zero at every other in-range
position. -/
theorem C2_onehot_amended (x : Tensor4) (L b0 n0 i0 j0 expected : ℕ)
    (hL : 1 ≤ L) (h2 : x.d2 = L) (h3 : x.d3 = 2 * L - 1)
    (hi0 : i0 < L)
    (hone : ∀ b n i j, x.val b n i j =
      if b = b0 ∧ n = n0 ∧ i = i0 ∧ j = j0 then 1 else 0)
    (hexp : i0 + j0 = L - 1 + expected) (hexpL : expected < L) :
    ∃ y, rel_to_abs x = some y ∧ y.d2 = L ∧ y.d3 = L ∧
      ∀ b n i k, i < L → k < L →
        y.val b n i k =
          if b = b0 ∧ n = n0 ∧ i = i0 ∧ k = expected then 1 else 0 := by
  obtain ⟨y, hy, _, _, e2, e3, hval⟩ := rel_to_abs_spec x L hL h2 h3
  refine ⟨y, hy, e2, e3, ?_⟩
  intro b n i k hi hk
  rw [hval b n i k hi hk, hone]
  have hcond : (b = b0 ∧ n = n0 ∧ i = i0 ∧ L - 1 + k - i = j0) ↔
      (b = b0 ∧ n = n0 ∧ i = i0 ∧ k = expected) := by
    constructor
    · rintro ⟨hb, hn, hi', hj⟩
      exact ⟨hb, hn, hi', by omega⟩
    · rintro ⟨hb, hn, hi', hk'⟩
      exact ⟨hb, hn, hi', by omega⟩
  rw [if_congr hcond rfl rfl]

/-- Witness for the amended C2 at `L = 2`, one-hot at `(0, 0, 0, 2)`,
`expected = 1`. -/
theorem C2_onehot_amended_witness :
    ∃ y, rel_to_abs (⟨1, 1, 2, 3, fun b n i j =>
        if b = 0 ∧ n = 0 ∧ i = 0 ∧ j = 2 then 1 else 0⟩ : Tensor4) =
          some y ∧ y.d2 = 2 ∧ y.d3 = 2 ∧
      ∀ b n i k, i < 2 → k < 2 →
        y.val b n i k = if b = 0 ∧ n = 0 ∧ i = 0 ∧ k = 1 then 1 else 0 :=
  C2_onehot_amended _ 2 0 0 0 2 1 (by decide) rfl rfl (by decide)
    (fun _ _ _ _ => rfl) (by decide) (by decide)

/-- Claim C3: `MHSA.forward`, for a module built by `MHSA.__init__` on
`fmap_size` with `heads` heads and value head-dimension `dim_v`, maps
any feature map of shape `(B, C, H, W)` with `C = dim` and spatial size
matching the declared feature-map size to an output of shape
`(B, heads * dim_v, H, W)`. -/
theorem C3_mhsa_output_shape (dim : ℕ) (fmap_size : ℕ × ℕ)
    (heads dim_qk dim_v : ℕ) (scale : ℚ) (wqk wv th tw : ℕ → ℕ → ℚ)
    (e : ℚ → ℚ) (x : Tensor4)
    (hheads : 1 ≤ heads) (hfh : 1 ≤ fmap_size.1) (hfw : 1 ≤ fmap_size.2)
    (hd1 : x.d1 = dim) (hhw : x.d2 * x.d3 = fmap_size.1 * fmap_size.2) :
    ∃ o, (MHSA.init dim fmap_size heads dim_qk dim_v scale wqk wv th
        tw).forward e x = some o ∧
      o.d0 = x.d0 ∧ o.d1 = heads * dim_v ∧ o.d2 = x.d2 ∧ o.d3 = x.d3 :=
  MHSA_forward_spec dim fmap_size heads dim_qk dim_v scale wqk wv th tw
    e x hheads hfh hfw hd1 hhw

/-- Witness for C3 on a 1x1 feature map with one head. -/
theorem C3_mhsa_output_shape_witness :
    ∃ o, (MHSA.init 1 (1, 1) 1 1 1 0 (fun _ _ => 0) (fun _ _ => 0)
        (fun _ _ => 0) (fun _ _ => 0)).forward (fun v => v)
        (⟨1, 1, 1, 1, fun _ _ _ _ => 0⟩ : Tensor4) = some o ∧
      o.d0 = 1 ∧ o.d1 = 1 * 1 ∧ o.d2 = 1 ∧ o.d3 = 1 :=
  C3_mhsa_output_shape 1 (1, 1) 1 1 1 0 _ _ _ _ _ _
    (by decide) (by decide) (by decide) rfl rfl

/-- All-ones 3x1 embedding table used to refute claim C4 as stated. -/
def t2C4 : Tensor2 := ⟨3, 1, fun _ _ => 1⟩

/-- A square `RelPosEmb` with `height = width = 2` and equal tables. -/
def peC4 : RelPosEmb := ⟨2, 2, t2C4, t2C4⟩

/-- A query whose entries depend only on the spatial x-coordinate, so
it is not symmetric under swapping x and y. -/
def qC4 : Tensor4 := ⟨1, 1, 4, 1, fun _ _ p _ => ((p / 2 : ℕ) : ℚ)⟩

/-- Counterexample to claim C4 as stated: with `height = width = 2` and
equal tables, the height and width relative-logit tensors computed in
`RelPosEmb.forward` from the same query `qC4` are not mutual
transposes.  Swapping x and y in both the query index and the key index
maps output position `(1, 0)` to `(2, 0)` (flattened), but the height
tensor holds 0 at `(1, 0)` while the width tensor holds 1 at
`(2, 0)`. -/
theorem C4_counterexample :
    (((rearrange_q_to5 qC4 peC4.height peC4.width).bind
        peC4.relLogitsH).map fun t => t.val 0 0 1 0) = some 0 ∧
      (((rearrange_q_to5 qC4 peC4.height peC4.width).bind
        peC4.relLogitsW).map fun t => t.val 0 0 2 0) = some 1 := by
  have hq5 : rearrange_q_to5 qC4 peC4.height peC4.width =
      some (rearrange_q_to5U qC4 peC4.height peC4.width) := by
    unfold rearrange_q_to5
    rw [if_pos (by decide)]
  obtain ⟨th, hth, _, _, _, _, hthval⟩ := relLogitsH_spec peC4
    (rearrange_q_to5U qC4 peC4.height peC4.width)
    (by decide) (by decide) (by decide) (by decide)
  obtain ⟨tw, htw, _, _, _, _, htwval⟩ := relLogitsW_spec peC4
    (rearrange_q_to5U qC4 peC4.height peC4.width)
    (by decide) (by decide) (by decide) (by decide)
  constructor
  · rw [hq5]
    simp only [Option.some_bind]
    rw [hth]
    simp only [Option.map_some']
    have h : th.val 0 0 1 0 = ∑ p ∈ Finset.range 1, ((0 : ℕ) : ℚ) * 1 :=
      hthval 0 0 0 1 0 0 (by decide) (by decide) (by decide) (by decide)
    rw [Finset.sum_range_one] at h
    rw [h]
    norm_num
  · rw [hq5]
    simp only [Option.some_bind]
    rw [htw]
    simp only [Option.map_some']
    have h : tw.val 0 0 2 0 = ∑ p ∈ Finset.range 1, ((1 : ℕ) : ℚ) * 1 :=
      htwval 0 0 1 0 0 0 (by decide) (by decide) (by decide)
    rw [Finset.sum_range_one] at h
    rw [h]
    norm_num

/-- Claim C4 (amended): when `height = width = L` and the two embedding
tables are equal, the height relative-logit computation and the width
relative-logit computation are mutual transposes as computations:
applying the height branch to a query equals applying the width branch
to the x/y-swapped query and then swapping x and y in both the query
and key indices of the output. -/
theorem C4_transpose_amended (pe : RelPosEmb) (q5 : Tensor5) (L : ℕ)
    (hL : 1 ≤ L) (h2 : q5.d2 = L) (h3 : q5.d3 = L)
    (htab : pe.rel_height = pe.rel_width)
    (hh0 : pe.rel_height.d0 = 2 * L - 1)
    (hh1 : pe.rel_height.d1 = q5.d4) :
    ∃ th tw, pe.relLogitsH q5 = some th ∧
      pe.relLogitsW (transpose23 q5) = some tw ∧
      ∀ b n x y i j, x < L → y < L → i < L → j < L →
        th.val b n (x * L + y) (i * L + j) =
          tw.val b n (y * L + x) (j * L + i) := by
  obtain ⟨th, hth, _, _, _, _, hthval⟩ := relLogitsH_spec pe q5
    (by rw [h2]; exact hL) (by rw [h3]; exact hL)
    (by rw [h2]; exact hh0) hh1
  obtain ⟨tw, htw, _, _, _, _, htwval⟩ := relLogitsW_spec pe
    (transpose23 q5)
    (by show 1 ≤ q5.d3; rw [h3]; exact hL)
    (by show 1 ≤ q5.d2; rw [h2]; exact hL)
    (by show pe.rel_width.d0 = 2 * q5.d2 - 1
        rw [← htab, h2]
        exact hh0)
    (by show pe.rel_width.d1 = q5.d4
        rw [← htab]
        exact hh1)
  rw [h2, h3] at hthval
  simp only [transpose23] at htwval
  rw [h2, h3] at htwval
  refine ⟨th, tw, hth, htw, ?_⟩
  intro b n x y i j hx hy hi hj
  rw [hthval b n x y i j hx hy hi hj, htwval b n y x j i hy hx hi]
  rw [htab]


/-- Witness for the amended C4 on the concrete square instance. -/
theorem C4_transpose_amended_witness :
    ∃ th tw, peC4.relLogitsH (rearrange_q_to5U qC4 2 2) = some th ∧
      peC4.relLogitsW (transpose23 (rearrange_q_to5U qC4 2 2)) = some tw ∧
      ∀ b n x y i j, x < 2 → y < 2 → i < 2 → j < 2 →
        th.val b n (x * 2 + y) (i * 2 + j) =
          tw.val b n (y * 2 + x) (j * 2 + i) :=
  C4_transpose_amended peC4 (rearrange_q_to5U qC4 2 2) 2 (by decide)
    rfl rfl rfl (by decide) (by decide)

/-- Concrete parameter bundle used by the C5 witness. -/
def pC5 : BlockParams :=
  ⟨(fun _ _ => 0), ⟨(fun _ => 1), (fun _ => 0)⟩, (fun _ _ => 0),
    ⟨(fun _ => 1), (fun _ => 0)⟩, (fun _ _ => 0), (fun _ _ => 0),
    (fun _ _ => 0), (fun _ _ => 0), 0, ⟨(fun _ => 1), (fun _ => 0)⟩,
    (fun _ _ => 0), ⟨(fun _ => 1), (fun _ => 0)⟩⟩

/-- Claim C5: in `BoTBlock`, the shortcut is `nn.Identity()` exactly
when the input and output channel counts agree and the stride is 1;
otherwise it is the 1x1-convolution + batch-norm + activation
projection.  `forward` always returns
`activation(net(x) + shortcut(x))`; in the identity case this is
`activation(net(x) + x)`. -/
theorem C5_shortcut_identity (dim : ℕ) (fmap_size : ℕ × ℕ)
    (dim_out stride heads proj_factor dim_qk dim_v : ℕ)
    (act : ℚ → ℚ) (p : BlockParams) :
    ((BoTBlock.init dim fmap_size dim_out stride heads proj_factor
        dim_qk dim_v act p).shortcut = Shortcut.identity ↔
      (dim = dim_out ∧ stride = 1)) ∧
    (¬(dim = dim_out ∧ stride = 1) →
      (BoTBlock.init dim fmap_size dim_out stride heads proj_factor
        dim_qk dim_v act p).shortcut =
        Shortcut.projection p.short_conv p.short_bn) ∧
    (∀ e x, (BoTBlock.init dim fmap_size dim_out stride heads
        proj_factor dim_qk dim_v act p).forward e x =
      (Shortcut.apply (BoTBlock.init dim fmap_size dim_out stride heads
          proj_factor dim_qk dim_v act p).shortcut dim_out dim stride
          act x).bind fun sc =>
        ((BoTBlock.init dim fmap_size dim_out stride heads proj_factor
            dim_qk dim_v act p).netForward e x).bind fun fm =>
          (add4 fm sc).map fun s => mapVal act s) ∧
    ((dim = dim_out ∧ stride = 1) → ∀ e x,
      (BoTBlock.init dim fmap_size dim_out stride heads proj_factor
        dim_qk dim_v act p).forward e x =
        ((BoTBlock.init dim fmap_size dim_out stride heads proj_factor
            dim_qk dim_v act p).netForward e x).bind fun fm =>
          (add4 fm x).map fun s => mapVal act s) := by
  by_cases hc : dim = dim_out ∧ stride = 1
  · have hsc : (BoTBlock.init dim fmap_size dim_out stride heads
        proj_factor dim_qk dim_v act p).shortcut = Shortcut.identity := by
      show (if dim ≠ dim_out ∨ stride ≠ 1 then
        Shortcut.projection p.short_conv p.short_bn
        else Shortcut.identity) = Shortcut.identity
      rw [if_neg]
      push_neg
      exact hc
    refine ⟨⟨fun _ => hc, fun _ => hsc⟩, fun hn => absurd hc hn,
      fun e x => rfl, fun _ e x => ?_⟩
    show ((BoTBlock.init dim fmap_size dim_out stride heads proj_factor
        dim_qk dim_v act p).shortcut.apply dim_out dim stride act
        x).bind _ = _
    rw [hsc]
    rfl
  · have hsc : (BoTBlock.init dim fmap_size dim_out stride heads
        proj_factor dim_qk dim_v act p).shortcut =
        Shortcut.projection p.short_conv p.short_bn := by
      show (if dim ≠ dim_out ∨ stride ≠ 1 then
        Shortcut.projection p.short_conv p.short_bn
        else Shortcut.identity) = _
      rw [if_pos]
      rw [Decidable.not_and_iff_or_not] at hc
      exact hc
    refine ⟨⟨fun hid => ?_, fun h => absurd h hc⟩, fun _ => hsc,
      fun e x => rfl, fun h _ _ => absurd h hc⟩
    rw [hsc] at hid
    exact absurd hid (by simp)

/-- Witness for C5 in the identity case (`dim = dim_out = 4`,
`stride = 1`) and the projection case (`stride = 2`). -/
theorem C5_shortcut_identity_witness :
    (BoTBlock.init 4 (1, 1) 4 1 1 1 1 1 (fun v => v) pC5).shortcut =
      Shortcut.identity ∧
    (BoTBlock.init 4 (1, 1) 4 2 1 1 1 1 (fun v => v) pC5).shortcut =
      Shortcut.projection pC5.short_conv pC5.short_bn ∧
    (BoTBlock.init 4 (1, 1) 4 1 1 1 1 1 (fun v => v) pC5).forward
        (fun v => v) (⟨1, 4, 1, 1, fun _ _ _ _ => 0⟩ : Tensor4) =
      ((BoTBlock.init 4 (1, 1) 4 1 1 1 1 1 (fun v => v)
          pC5).netForward (fun v => v)
          (⟨1, 4, 1, 1, fun _ _ _ _ => 0⟩ : Tensor4)).bind fun fm =>
        (add4 fm (⟨1, 4, 1, 1, fun _ _ _ _ => 0⟩ : Tensor4)).map
          fun s => mapVal (fun v => v) s :=
  ⟨(C5_shortcut_identity 4 (1, 1) 4 1 1 1 1 1 (fun v => v) pC5).1.mpr
      ⟨rfl, rfl⟩,
    (C5_shortcut_identity 4 (1, 1) 4 2 1 1 1 1 (fun v => v)
        pC5).2.1 (by decide),
    (C5_shortcut_identity 4 (1, 1) 4 1 1 1 1 1 (fun v => v)
        pC5).2.2.2 ⟨rfl, rfl⟩ _ _⟩

/-- Claim C6: `BoTStack.forward` hits an assertion failure exactly when
the input channel count differs from the stack's `dim` or the spatial
size differs from its `fmap_size`; when the precondition holds it runs
the block sequence on the input. -/
theorem C6_stack_assert (s : BoTStack) (e : ℚ → ℚ) (x : Tensor4) :
    (s.forward e x = Except.error () ↔
      ¬(x.d1 = s.dim ∧ x.d2 = s.fmap_size.1 ∧ x.d3 = s.fmap_size.2)) ∧
    ((x.d1 = s.dim ∧ x.d2 = s.fmap_size.1 ∧ x.d3 = s.fmap_size.2) →
      s.forward e x = Except.ok
        (s.blocks.foldlM (fun t blk => blk.forward e t) x)) := by
  unfold BoTStack.forward
  by_cases h1 : x.d1 = s.dim
  · by_cases h2 : x.d2 = s.fmap_size.1 ∧ x.d3 = s.fmap_size.2
    · rw [if_pos h1, if_pos h2]
      constructor
      · constructor
        · intro hcontra
          exact absurd hcontra (by simp)
        · intro hcontra
          exact absurd ⟨h1, h2.1, h2.2⟩ hcontra
      · intro _
        rfl
    · rw [if_pos h1, if_neg h2]
      constructor
      · constructor
        · intro _ hcontra
          exact h2 ⟨hcontra.2.1, hcontra.2.2⟩
        · intro _
          rfl
      · intro hcontra
        exact absurd ⟨hcontra.2.1, hcontra.2.2⟩ h2
  · rw [if_neg h1]
    constructor
    · constructor
      · intro _ hcontra
        exact h1 hcontra.1
      · intro _
        rfl
    · intro hcontra
      exact absurd hcontra.1 h1

/-- Concrete parameter bundle used by the C6 witness. -/
def pC6 : BlockParams :=
  ⟨(fun _ _ => 0), ⟨(fun _ => 1), (fun _ => 0)⟩, (fun _ _ => 0),
    ⟨(fun _ => 1), (fun _ => 0)⟩, (fun _ _ => 0), (fun _ _ => 0),
    (fun _ _ => 0), (fun _ _ => 0), 0, ⟨(fun _ => 1), (fun _ => 0)⟩,
    (fun _ _ => 0), ⟨(fun _ => 1), (fun _ => 0)⟩⟩

/-- A concrete stack (no layers, `dim = 2`, `fmap_size = (3, 3)`). -/
def stC6 : BoTStack :=
  BoTStack.init 2 (3, 3) 2 1 1 0 1 1 1 (fun v => v) (fun _ => pC6)

/-- Witness for C6: a channel mismatch trips the assertion, a matching
input is passed to the block sequence. -/
theorem C6_stack_assert_witness :
    stC6.forward (fun v => v) (⟨1, 5, 3, 3, fun _ _ _ _ => 0⟩ :
      Tensor4) = Except.error () ∧
    stC6.forward (fun v => v) (⟨1, 2, 3, 3, fun _ _ _ _ => 0⟩ :
      Tensor4) = Except.ok
      (stC6.blocks.foldlM (fun t blk => blk.forward (fun v => v) t)
        (⟨1, 2, 3, 3, fun _ _ _ _ => 0⟩ : Tensor4)) :=
  ⟨(C6_stack_assert stC6 (fun v => v) _).1.mpr (by decide),
    (C6_stack_assert stC6 (fun v => v) _).2 (by decide)⟩


/-- Parent config file of the C7 scenario: sets `DATA.BATCH_SIZE: 16`,
no `BASE` key. -/
def parentC7 : YFile := ⟨[(["DATA", "BATCH_SIZE"], Val.vint 16)]⟩

/-- Child config file of the C7 scenario: `BASE: ['parent.yaml']` and
`DATA.BATCH_SIZE: 32`. -/
def childC7 : YFile :=
  ⟨[(["BASE"], Val.vstrs ["parent.yaml"]),
    (["DATA", "BATCH_SIZE"], Val.vint 32)]⟩

/-- File system of the C7 scenario. -/
def fsC7 : String → Option YFile := fun s =>
  if s = "child.yaml" then some childC7
  else if s = "parent.yaml" then some parentC7 else none

/-- Path resolution of the C7 scenario (flat names). -/
def resolveC7 : String → String → String := fun _ b => b

/-- Claim C7: loading the child file merges the parent first (the
parent's `DATA.BATCH_SIZE = 16` lands in the tree) and then the child's
own keys, so the final `DATA.BATCH_SIZE` is 32 — the child overrides the
parent — for any starting config that has the two keys involved. -/
theorem C7_config_merge (cfg : Config) (b0 : ℤ) (l0 : List String)
    (hb : findVal cfg.entries ["DATA", "BATCH_SIZE"] =
      some (Val.vint b0))
    (hbase : findVal cfg.entries ["BASE"] = some (Val.vstrs l0)) :
    ∃ c', update_config_from_file 2 fsC7 resolveC7 cfg "child.yaml" =
        some c' ∧
      findVal c'.entries ["DATA", "BATCH_SIZE"] = some (Val.vint 32) ∧
      c'.frozen = true := by
  have hfsc : fsC7 "child.yaml" = some childC7 := by decide
  have hfsp : fsC7 "parent.yaml" = some parentC7 := by decide
  have hbasec : getBASE childC7 = ["parent.yaml"] := by decide
  have hbasep : getBASE parentC7 = [""] := by decide
  have hne : (["BASE"] : List String) ≠ ["DATA", "BATCH_SIZE"] := by
    decide
  have hmerge1 : mergeEntries parentC7.entries cfg.entries =
      some (setVal cfg.entries ["DATA", "BATCH_SIZE"] (Val.vint 16)) := by
    unfold mergeEntries parentC7
    simp only [List.foldlM_cons, List.foldlM_nil]
    rw [hb]
    simp [Val.sameKind]
  have hE1b : findVal (setVal cfg.entries ["DATA", "BATCH_SIZE"]
      (Val.vint 16)) ["BASE"] = some (Val.vstrs l0) := by
    rw [findVal_setVal_ne _ _ _ _ hne]
    exact hbase
  have hE1d : findVal (setVal cfg.entries ["DATA", "BATCH_SIZE"]
      (Val.vint 16)) ["DATA", "BATCH_SIZE"] = some (Val.vint 16) :=
    findVal_setVal_self _ _ _
  have hE2d : findVal (setVal (setVal cfg.entries
        ["DATA", "BATCH_SIZE"] (Val.vint 16)) ["BASE"]
        (Val.vstrs ["parent.yaml"])) ["DATA", "BATCH_SIZE"] =
      some (Val.vint 16) := by
    rw [findVal_setVal_ne _ _ _ _ (fun h => hne h.symm)]
    exact hE1d
  have hmerge2 : mergeEntries childC7.entries
      (setVal cfg.entries ["DATA", "BATCH_SIZE"] (Val.vint 16)) =
      some (setVal (setVal (setVal cfg.entries ["DATA", "BATCH_SIZE"]
        (Val.vint 16)) ["BASE"] (Val.vstrs ["parent.yaml"]))
        ["DATA", "BATCH_SIZE"] (Val.vint 32)) := by
    unfold mergeEntries childC7
    simp only [List.foldlM_cons, List.foldlM_nil, Option.pure_def,
      Option.bind_eq_bind]
    rw [hE1b]
    dsimp only
    rw [if_pos (show Val.sameKind (Val.vstrs ["parent.yaml"])
      (Val.vstrs l0) = true from rfl)]
    simp only [Option.some_bind]
    rw [hE2d]
    dsimp only
    rw [if_pos (show Val.sameKind (Val.vint 32) (Val.vint 16) = true
      from rfl)]
    simp only [Option.some_bind]
  refine ⟨⟨true, setVal (setVal (setVal cfg.entries
      ["DATA", "BATCH_SIZE"] (Val.vint 16)) ["BASE"]
      (Val.vstrs ["parent.yaml"])) ["DATA", "BATCH_SIZE"]
      (Val.vint 32)⟩, ?_, findVal_setVal_self _ _ _, rfl⟩
  simp only [update_config_from_file]
  rw [hfsc]
  dsimp only
  simp only [hbasec, List.foldlM_cons, List.foldlM_nil, resolveC7,
    Option.pure_def, Option.bind_eq_bind]
  rw [if_neg (by decide : ¬("parent.yaml" = ""))]
  rw [hfsp]
  dsimp only
  simp only [hbasep, List.foldlM_cons, List.foldlM_nil, if_true,
    Option.pure_def, Option.bind_eq_bind, Option.some_bind,
    Option.map_some']
  rw [hmerge1]
  simp only [Option.map_some', Option.some_bind]
  rw [hmerge2]
  rfl

/-- Witness for C7 starting from the default config. -/
theorem C7_config_merge_witness :
    ∃ c', update_config_from_file 2 fsC7 resolveC7 defaultConfig
        "child.yaml" = some c' ∧
      findVal c'.entries ["DATA", "BATCH_SIZE"] = some (Val.vint 32) ∧
      c'.frozen = true :=
  C7_config_merge defaultConfig 8 [""] (by decide) (by decide)


/-- Empty file system used by the C8 scenario (no `--cfg` argument is
passed, so it is never consulted). -/
def fsC8 : String → Option YFile := fun _ => none

/-- Path resolution used by the C8 scenario. -/
def resolveC8 : String → String → String := fun _ b => b

/-- A config, as it may come out of config files, with `AMP: True`. -/
def cfgC8 : Config :=
  ⟨false, [(["EVAL"], Val.vbool false), (["AMP"], Val.vbool true)]⟩

/-- CLI arguments with the eval flag set and the amp flag NOT set. -/
def argsC8 : Args :=
  ⟨none, none, none, none, none, none, true, none, none, none, false⟩

/-- CLI arguments with both the eval flag and the amp flag set. -/
def argsC8b : Args :=
  ⟨none, none, none, none, none, none, true, none, none, none, true⟩

/-- Counterexample to claim C8 as stated: with the eval flag set but
the amp flag absent, a config whose files set `AMP: True` keeps
`AMP = True` after `update_config` — eval mode does NOT force mixed
precision off when the amp flag is not passed. -/
theorem C8_counterexample :
    ((update_config 1 fsC8 resolveC8 cfgC8 argsC8).bind
      fun c => findVal c.entries ["AMP"]) = some (Val.vbool true) ∧
    ((update_config 1 fsC8 resolveC8 cfgC8 argsC8).bind
      fun c => findVal c.entries ["AMP"]) ≠ some (Val.vbool false) := by
  constructor
  · decide
  · decide

/-- Claim C8 (amended): when the eval flag is set AND the
mixed-precision flag is passed, the resulting config has `AMP = False`,
regardless of any `AMP` value coming from config files; when the
mixed-precision flag is not passed, `AMP` keeps its prior value (see
the counterexample). -/
theorem C8_eval_forces_amp_off (fuel : ℕ) (fs : String → Option YFile)
    (resolve : String → String → String) (config : Config) (args : Args)
    (c' : Config) (he : args.eval = true) (ha : args.amp = true)
    (h : update_config fuel fs resolve config args = some c') :
    findVal c'.entries ["AMP"] = some (Val.vbool false) := by
  obtain ⟨c0, c2, c3, c4, c5, c6, c7, c8, c9, c10, h0, h2, h3, h4, h5,
    h6, h7, h8, h9, h10, h11⟩ :=
    update_config_eq_some fuel fs resolve config args c' h
  obtain ⟨_, hev, _⟩ := evalStep_spec args c6 c7 h7
  have hev7 : findVal c7.entries ["EVAL"] = some (Val.vbool true) :=
    (hev he).1
  have h8' := (setIfStr_spec _ _ _ _ h8).2 ["EVAL"] (by decide)
  have h9' := (setIfStr_spec _ _ _ _ h9).2 ["EVAL"] (by decide)
  have h10' := (setIfInt_spec _ _ _ _ h10).2 ["EVAL"] (by decide)
  have hev10 : findVal c10.entries ["EVAL"] = some (Val.vbool true) := by
    rw [h10', h9', h8']
    exact hev7
  obtain ⟨_, hamp, _, _⟩ := ampStep_spec args c10 c' h11
  exact hamp ha hev10

/-- Witness for the amended C8: both flags set on a config whose files
set `AMP: True` still ends with `AMP = False`. -/
theorem C8_eval_forces_amp_off_witness :
    ((update_config 1 fsC8 resolveC8 cfgC8 argsC8b).bind
      fun c => findVal c.entries ["AMP"]) = some (Val.vbool false) := by
  rcases hres : update_config 1 fsC8 resolveC8 cfgC8 argsC8b with _ | c'
  · exact absurd hres (by decide)
  · simp only [Option.some_bind]
    exact C8_eval_forces_amp_off 1 fsC8 resolveC8 cfgC8 argsC8b c'
      rfl rfl hres

/-- Empty file system used by the C9 scenarios. -/
def fsC9 : String → Option YFile :=
  fun s => if s = "a.yaml" then some ⟨[(["SEED"], Val.vint 3)]⟩ else none

/-- Path resolution used by the C9 scenarios. -/
def resolveC9 : String → String → String := fun _ b => b

/-- CLI arguments with every flag off and every option absent. -/
def argsC9 : Args :=
  ⟨none, none, none, none, none, none, false, none, none, none, false⟩

/-- Counterexample to claim C9 as stated: after `update_config`
completes (a public config-producing operation), the returned config is
NOT frozen — the source's final `config.freeze()` is commented out —
and it accepts further mutation. -/
theorem C9_counterexample :
    (update_config 1 fsC9 resolveC9 defaultConfig argsC9).map
      (fun c => c.frozen) = some false ∧
    ((update_config 1 fsC9 resolveC9 defaultConfig argsC9).bind
      fun c => setA c ["SEED"] (Val.vint 1)).isSome = true := by
  constructor
  · decide
  · decide

/-- Claim C9 (amended): `_update_config_from_file` does freeze the
config (and the frozen config rejects attribute mutation), but
`update_config` returns the config unfrozen (defrosted and never
re-frozen), and the returned config accepts attribute mutation. -/
theorem C9_frozen_amended :
    (∀ fuel fs resolve cfg p c',
      update_config_from_file fuel fs resolve cfg p = some c' →
        c'.frozen = true ∧ ∀ q v, setA c' q v = none) ∧
    (∀ fuel fs resolve cfg args c',
      update_config fuel fs resolve cfg args = some c' →
        c'.frozen = false ∧ ∀ q v, (setA c' q v).isSome = true) := by
  constructor
  · intro fuel fs resolve cfg p c' h
    match fuel with
    | 0 => exact absurd h (by simp [update_config_from_file])
    | fuel + 1 =>
      rw [update_config_from_file] at h
      rcases hfs : fs p with _ | f
      · rw [hfs] at h
        exact absurd h (by simp)
      · rw [hfs] at h
        simp only at h
        obtain ⟨c2, _, hmap⟩ := Option.bind_eq_some.mp h
        obtain ⟨es, _, hc'⟩ := Option.map_eq_some'.mp hmap
        subst hc'
        exact ⟨rfl, fun q v => by simp [setA]⟩
  · intro fuel fs resolve cfg args c' h
    obtain ⟨c0, c2, c3, c4, c5, c6, c7, c8, c9, c10, h0, h2, h3, h4,
      h5, h6, h7, h8, h9, h10, h11⟩ :=
      update_config_eq_some fuel fs resolve cfg args c' h
    have hf2 : c2.frozen = false := (setIfStr_spec _ _ _ _ h2).1
    have hf3 : c3.frozen = false :=
      ((setIfInt_spec _ _ _ _ h3).1).trans hf2
    have hf4 : c4.frozen = false :=
      ((setIfInt_spec _ _ _ _ h4).1).trans hf3
    have hf5 : c5.frozen = false :=
      ((setIfStr_spec _ _ _ _ h5).1).trans hf4
    have hf6 : c6.frozen = false :=
      ((setIfInt_spec _ _ _ _ h6).1).trans hf5
    have hf7 : c7.frozen = false :=
      ((evalStep_spec _ _ _ h7).1).trans hf6
    have hf8 : c8.frozen = false :=
      ((setIfStr_spec _ _ _ _ h8).1).trans hf7
    have hf9 : c9.frozen = false :=
      ((setIfStr_spec _ _ _ _ h9).1).trans hf8
    have hf10 : c10.frozen = false :=
      ((setIfInt_spec _ _ _ _ h10).1).trans hf9
    have hf' : c'.frozen = false :=
      ((ampStep_spec _ _ _ h11).1).trans hf10
    refine ⟨hf', fun q v => ?_⟩
    unfold setA
    rw [if_neg (by rw [hf']; exact Bool.false_ne_true)]
    rfl

/-- Witness for the amended C9: loading a file freezes, a CLI update
run leaves the config unfrozen. -/
theorem C9_frozen_amended_witness :
    (update_config_from_file 1 fsC9 resolveC9 defaultConfig
      "a.yaml").map (fun c => c.frozen) = some true ∧
    (update_config 1 fsC9 resolveC9 defaultConfig argsC9).map
      (fun c => c.frozen) = some false := by
  constructor
  · rcases hres : update_config_from_file 1 fsC9 resolveC9
        defaultConfig "a.yaml" with _ | c'
    · exact absurd hres (by decide)
    · rw [Option.map_some']
      exact congrArg some
        ((C9_frozen_amended.1 1 fsC9 resolveC9 defaultConfig
          "a.yaml" c' hres).1)
  · rcases hres : update_config 1 fsC9 resolveC9 defaultConfig argsC9
        with _ | c'
    · exact absurd hres (by decide)
    · rw [Option.map_some']
      exact congrArg some
        ((C9_frozen_amended.2 1 fsC9 resolveC9 defaultConfig argsC9
          c' hres).1)

/-- Claim C10: whenever the eval flag is set, `update_config`
unconditionally overwrites `DATA.BATCH_SIZE_EVAL` with the raw CLI
batch-size value; in particular, when no batch-size argument was
passed, the configured value is replaced by python `None`. -/
theorem C10_batch_size_eval_overwrite (fuel : ℕ)
    (fs : String → Option YFile) (resolve : String → String → String)
    (config : Config) (args : Args) (c' : Config)
    (he : args.eval = true)
    (h : update_config fuel fs resolve config args = some c') :
    findVal c'.entries ["DATA", "BATCH_SIZE_EVAL"] =
      some (optIntVal args.batch_size) ∧
    (args.batch_size = none →
      findVal c'.entries ["DATA", "BATCH_SIZE_EVAL"] = some Val.vnone) := by
  obtain ⟨c0, c2, c3, c4, c5, c6, c7, c8, c9, c10, h0, h2, h3, h4, h5,
    h6, h7, h8, h9, h10, h11⟩ :=
    update_config_eq_some fuel fs resolve config args c' h
  obtain ⟨_, hev, _⟩ := evalStep_spec args c6 c7 h7
  have hbse7 : findVal c7.entries ["DATA", "BATCH_SIZE_EVAL"] =
      some (optIntVal args.batch_size) := (hev he).2
  have h8' := (setIfStr_spec _ _ _ _ h8).2 ["DATA", "BATCH_SIZE_EVAL"]
    (by decide)
  have h9' := (setIfStr_spec _ _ _ _ h9).2 ["DATA", "BATCH_SIZE_EVAL"]
    (by decide)
  have h10' := (setIfInt_spec _ _ _ _ h10).2 ["DATA", "BATCH_SIZE_EVAL"]
    (by decide)
  obtain ⟨_, _, _, h11'⟩ := ampStep_spec args c10 c' h11
  have hmain : findVal c'.entries ["DATA", "BATCH_SIZE_EVAL"] =
      some (optIntVal args.batch_size) := by
    rw [h11' _ (by decide), h10', h9', h8']
    exact hbse7
  exact ⟨hmain, fun hb => by rw [hmain, hb]; rfl⟩

/-- CLI arguments for the C10 witness: eval requested, batch size
absent. -/
def argsC10 : Args :=
  ⟨none, none, none, none, none, none, true, none, none, none, false⟩

/-- Witness for C10: running on the default config with eval requested
and no batch-size argument leaves `DATA.BATCH_SIZE_EVAL = None` (the
configured 8 is lost). -/
theorem C10_batch_size_eval_overwrite_witness :
    ((update_config 1 fsC9 resolveC9 defaultConfig argsC10).bind
      fun c => findVal c.entries ["DATA", "BATCH_SIZE_EVAL"]) =
      some Val.vnone := by
  rcases hres : update_config 1 fsC9 resolveC9 defaultConfig argsC10
      with _ | c'
  · exact absurd hres (by decide)
  · simp only [Option.some_bind]
    exact (C10_batch_size_eval_overwrite 1 fsC9 resolveC9 defaultConfig
      argsC10 c' rfl hres).2 rfl

end BoTNet
